import Mathlib

/-!
# Reaction-Diffusion-C: a shallow embedding of the Gray-Scott simulation

The C sources (`main.c`, `Pruebas/semana2.c`, `p/semana3.c`) keep four global
`float` arrays `gridA`, `gridB`, `nextA`, `nextB` of size `WIDTH x HEIGHT` and
mutate them in `for` loops.  Here

* a grid is a function from `int` indices to exact rationals (the claims are
  stated in exact arithmetic; `float` rounding is not modelled),
* the four globals are the fields of `Sim`, passed explicitly,
* a C loop `for (int i = lo; i < hi; i++)` is `forLoop lo hi`, a left fold of
  the loop body over the indices `lo, lo+1, ..., hi-1`,
* raylib's `GetRandomValue` is an arbitrary stream of outcomes (`Rng`).
-/

namespace ReactionDiffusion

/-! ## Constants (`#define`s) -/

/-- The macro `WIDTH` of the sources. -/
def WIDTH : Int := 600

/-- The macro `HEIGHT` of the sources. -/
def HEIGHT : Int := 600

/-- The macro `SCALE` of the sources. -/
def SCALE : Int := 1

/-- The feed rate `F 0.03f`, as an exact rational. -/
def F : ℚ := 3 / 100

/-- The kill rate `K 0.06f`, as an exact rational. -/
def K : ℚ := 6 / 100

/-! ## Data model -/

/-- One `float [WIDTH][HEIGHT]` array, read at `int` indices. -/
abbrev Grid := Int → Int → ℚ

/-- The assignment `g[x][y] = v`. -/
def Grid.set (g : Grid) (x y : Int) (v : ℚ) : Grid :=
  fun i j => if i = x ∧ j = y then v else g i j

/-- The four global arrays of the program. -/
structure Sim where
  /-- Live field of substance A. -/
  gridA : Grid
  /-- Live field of substance B. -/
  gridB : Grid
  /-- Next-step buffer of substance A. -/
  nextA : Grid
  /-- Next-step buffer of substance B. -/
  nextB : Grid

/-- The globals as the C runtime starts them: every array zero. -/
def zeroSim : Sim :=
  { gridA := fun _ _ => 0, gridB := fun _ _ => 0, nextA := fun _ _ => 0, nextB := fun _ _ => 0 }

/-! ## Loops -/

/-- The values the counter of `for (int i = lo; i < hi; i++)` takes, in order. -/
def loopIndices (lo hi : Int) : List Int :=
  (List.range (hi - lo).toNat).map (fun (k : Nat) => lo + (k : Int))

/-- The loop `for (int i = lo; i < hi; i++) body`, acting on the state `s`. -/
@[irreducible]
def forLoop {σ : Type} (lo hi : Int) (body : Int → σ → σ) (s : σ) : σ :=
  (loopIndices lo hi).foldl (fun acc i => body i acc) s

/-! ## The stepper (`UpdateReactionDiffusion`, identical in the three sources) -/

/-- The body of the first loop nest of `UpdateReactionDiffusion` at cell `(x, y)`. -/
def updateCell (x y : Int) (s : Sim) : Sim :=
  let a := s.gridA x y
  let b := s.gridB x y
  let lapA := s.gridA (x - 1) y + s.gridA (x + 1) y + s.gridA x (y - 1) + s.gridA x (y + 1) - 4 * a
  let lapB := s.gridB (x - 1) y + s.gridB (x + 1) y + s.gridB x (y - 1) + s.gridB x (y + 1) - 4 * b
  let reaction := a * b * b
  let s1 : Sim := { s with nextA := s.nextA.set x y (a + (lapA - reaction + F * (1 - a)) * (5 / 100)) }
  { s1 with nextB := s1.nextB.set x y (b + (lapB + reaction - (F + K) * b) * (5 / 100)) }

/-- The body of the copy-back loop nest of `UpdateReactionDiffusion` at cell `(x, y)`. -/
def commitCell (x y : Int) (s : Sim) : Sim :=
  let s1 : Sim := { s with gridA := s.gridA.set x y (s.nextA x y) }
  { s1 with gridB := s1.gridB.set x y (s1.nextB x y) }

/-- The first loop nest of `UpdateReactionDiffusion`: every interior cell is
staged into `nextA`, `nextB`. -/
def stageInterior (s : Sim) : Sim :=
  forLoop 1 (WIDTH - 1) (fun x s =>
    forLoop 1 (HEIGHT - 1) (fun y s => updateCell x y s) s) s

/-- The second loop nest of `UpdateReactionDiffusion`: the buffers are copied
over the whole live grid. -/
def commit (s : Sim) : Sim :=
  forLoop 0 WIDTH (fun x s =>
    forLoop 0 HEIGHT (fun y s => commitCell x y s) s) s

/-- The function `UpdateReactionDiffusion`: the staging loop nest, then the
copy-back loop nest. -/
def UpdateReactionDiffusion (s : Sim) : Sim :=
  commit (stageInterior s)

/-- The value the stepper stages for substance A at `(x, y)`, read from the grids `gA`, `gB`. -/
def stagedA (gA gB : Grid) (x y : Int) : ℚ :=
  gA x y + (gA (x - 1) y + gA (x + 1) y + gA x (y - 1) + gA x (y + 1) - 4 * gA x y
    - gA x y * gB x y * gB x y + F * (1 - gA x y)) * (5 / 100)

/-- The value the stepper stages for substance B at `(x, y)`, read from the grids `gA`, `gB`. -/
def stagedB (gA gB : Grid) (x y : Int) : ℚ :=
  gB x y + (gB (x - 1) y + gB (x + 1) y + gB x (y - 1) + gB x (y + 1) - 4 * gB x y
    + gA x y * gB x y * gB x y - (F + K) * gB x y) * (5 / 100)

/-! ## The stepper with the feed and kill rates as parameters -/

/-- The body of the first loop nest of `UpdateReactionDiffusion` at cell
`(x, y)`, with the macros `F` and `K` replaced by the parameters `f` and `k`. -/
def updateCellWith (f k : ℚ) (x y : Int) (s : Sim) : Sim :=
  let a := s.gridA x y
  let b := s.gridB x y
  let lapA := s.gridA (x - 1) y + s.gridA (x + 1) y + s.gridA x (y - 1) + s.gridA x (y + 1) - 4 * a
  let lapB := s.gridB (x - 1) y + s.gridB (x + 1) y + s.gridB x (y - 1) + s.gridB x (y + 1) - 4 * b
  let reaction := a * b * b
  let s1 : Sim := { s with nextA := s.nextA.set x y (a + (lapA - reaction + f * (1 - a)) * (5 / 100)) }
  { s1 with nextB := s1.nextB.set x y (b + (lapB + reaction - (f + k) * b) * (5 / 100)) }

/-- The first loop nest of `UpdateReactionDiffusion` with rates `f`, `k`. -/
def stageInteriorWith (f k : ℚ) (s : Sim) : Sim :=
  forLoop 1 (WIDTH - 1) (fun x s =>
    forLoop 1 (HEIGHT - 1) (fun y s => updateCellWith f k x y s) s) s

/-- The function `UpdateReactionDiffusion` with rates `f`, `k`; the function
of the sources is the one with `f = F`, `k = K`. -/
def UpdateReactionDiffusionWith (f k : ℚ) (s : Sim) : Sim :=
  commit (stageInteriorWith f k s)

/-- The value staged for substance A at `(x, y)` with feed rate `f`. -/
def stagedAWith (f : ℚ) (gA gB : Grid) (x y : Int) : ℚ :=
  gA x y + (gA (x - 1) y + gA (x + 1) y + gA x (y - 1) + gA x (y + 1) - 4 * gA x y
    - gA x y * gB x y * gB x y + f * (1 - gA x y)) * (5 / 100)

/-- The value staged for substance B at `(x, y)` with rates `f`, `k`. -/
def stagedBWith (f k : ℚ) (gA gB : Grid) (x y : Int) : ℚ :=
  gB x y + (gB (x - 1) y + gB (x + 1) y + gB x (y - 1) + gB x (y + 1) - 4 * gB x y
    + gA x y * gB x y * gB x y - (f + k) * gB x y) * (5 / 100)

/-! ## The random source (raylib `GetRandomValue`) -/

/-- The process-wide random source: `draw n lo hi` is what the `n`-th call of
`GetRandomValue(lo, hi)` returns; `calls` counts the calls made so far. -/
structure Rng where
  /-- Outcome of the `n`-th call when asked for the range `lo .. hi`. -/
  draw : Nat → Int → Int → Int
  /-- Number of calls made so far. -/
  calls : Nat

/-- One call `GetRandomValue(lo, hi)`: the outcome and the advanced source. -/
def GetRandomValue (lo hi : Int) (r : Rng) : Int × Rng :=
  (r.draw r.calls lo hi, { draw := r.draw, calls := r.calls + 1 })

/-- The source answers every call within the inclusive range it is asked for. -/
def Rng.InRange (r : Rng) : Prop :=
  ∀ n lo hi, lo ≤ hi → lo ≤ r.draw n lo hi ∧ r.draw n lo hi ≤ hi

/-- A source that always answers with the lower end of the range asked for. -/
def lowRng : Rng := { draw := fun _ lo _ => lo, calls := 0 }

/-- The C conversion of a `float` argument to `int`: truncation toward zero. -/
def truncToInt (q : ℚ) : Int := Int.tdiv q.num q.den

/-! ## Patch seeding (`InitReactionDiffusion` of `main.c` and `semana2.c`) -/

/-- The body of the first loop nest of `InitReactionDiffusion` at cell `(x, y)`. -/
def fillCell (x y : Int) (s : Sim) : Sim :=
  let s1 : Sim := { s with gridA := s.gridA.set x y 1 }
  { s1 with gridB := s1.gridB.set x y 0 }

/-- The first loop nest of `InitReactionDiffusion`: A = 1, B = 0 everywhere. -/
def fillUniform (s : Sim) : Sim :=
  forLoop 0 WIDTH (fun x s =>
    forLoop 0 HEIGHT (fun y s => fillCell x y s) s) s

/-- The guarded write in the innermost patch loop. -/
def paintCell (x y : Int) (s : Sim) : Sim :=
  if x < WIDTH ∧ y < HEIGHT then { s with gridB := s.gridB.set x y 1 } else s

/-- The two inner loops of the patch loop: one `20 x 20` patch at `(xStart, yStart)`. -/
def paintPatch (xStart yStart : Int) (s : Sim) : Sim :=
  forLoop xStart (xStart + 20) (fun x s =>
    forLoop yStart (yStart + 20) (fun y s => paintCell x y s) s) s

/-- One iteration of the patch loop: draw an origin, paint the patch. -/
def seedPatch (st : Sim × Rng) : Sim × Rng :=
  let (xStart, r1) := GetRandomValue 0 (WIDTH - 20) st.2
  let (yStart, r2) := GetRandomValue 0 (HEIGHT - 20) r1
  (paintPatch xStart yStart st.1, r2)

/-- The function `InitReactionDiffusion` of `main.c` and `semana2.c`. -/
def InitReactionDiffusion (s : Sim) (r : Rng) : Sim × Rng :=
  forLoop 0 100 (fun _ st => seedPatch st) (fillUniform s, r)

/-- The cells the two inner patch loops visit, in order. -/
def patchCells (xStart yStart : Int) : List (Int × Int) :=
  (loopIndices xStart (xStart + 20)).flatMap (fun x =>
    (loopIndices yStart (yStart + 20)).map (fun y => (x, y)))

/-- The origin of the `k`-th patch: the outcomes of calls `2k` and `2k+1`
counted from the start of `InitReactionDiffusion`. -/
def patchOrigin (r : Rng) (k : Nat) : Int × Int :=
  (r.draw (r.calls + 2 * k) 0 (WIDTH - 20), r.draw (r.calls + 2 * k + 1) 0 (HEIGHT - 20))

/-- Cell `(x, y)` lies in the `20 x 20` patch with origin `o`. -/
def inPatch (o : Int × Int) (x y : Int) : Prop :=
  o.1 ≤ x ∧ x < o.1 + 20 ∧ o.2 ≤ y ∧ y < o.2 + 20

/-! ## Noise (`AddNoise`, identical in the three sources) -/

/-- The body of the loop nest of `AddNoise` at cell `(x, y)`. -/
def noiseCell (x y : Int) (st : Sim × Rng) : Sim × Rng :=
  let (v, r1) := GetRandomValue 0 100 st.2
  if v < 5 then
    let (na, r2) := GetRandomValue (truncToInt (-(1 / 10))) (truncToInt (1 / 10)) r1
    let s1 : Sim := { st.1 with gridA := st.1.gridA.set x y (st.1.gridA x y + (na : ℚ)) }
    let (nb, r3) := GetRandomValue (truncToInt (-(1 / 10))) (truncToInt (1 / 10)) r2
    ({ s1 with gridB := s1.gridB.set x y (s1.gridB x y + (nb : ℚ)) }, r3)
  else (st.1, r1)

/-- The function `AddNoise`. -/
def AddNoise (s : Sim) (r : Rng) : Sim × Rng :=
  forLoop 1 (WIDTH - 1) (fun x st =>
    forLoop 1 (HEIGHT - 1) (fun y st => noiseCell x y st) st) (s, r)

/-- The outcomes of the selection draw `GetRandomValue(0, 100)`. -/
def selectionOutcomes : List Int := loopIndices 0 (100 + 1)

/-- The outcomes of the selection draw that pass the test `< 5`. -/
def selectedOutcomes : List Int := selectionOutcomes.filter (fun v => decide (v < 5))

/-- The share of the equally likely selection outcomes that pass the test. -/
def selectionProbability : ℚ := (selectedOutcomes.length : ℚ) / (selectionOutcomes.length : ℚ)

/-! ## The frame loop of `main` -/

/-- One pass of the `while` loop of `main`, drawing left out: `AddNoise`, then
`UpdateReactionDiffusion`. -/
def frame (st : Sim × Rng) : Sim × Rng :=
  let noisy := AddNoise st.1 st.2
  (UpdateReactionDiffusion noisy.1, noisy.2)

/-- The state after `n` passes of the `while` loop. -/
def frames (n : Nat) (st : Sim × Rng) : Sim × Rng := Nat.iterate frame n st

/-- The function `main` of `main.c` and `semana2.c`, for a window that asks to
close after `n` frames: the exit status and the final arrays. -/
def main (n : Nat) (r : Rng) : Int × Sim :=
  let st := InitReactionDiffusion zeroSim r
  (0, (frames n st).1)

/-! ## Image-derived seeding (`InitReactionDiffusion` of `semana3.c`) -/

/-- The raylib type `Color`: four bytes. -/
structure Color where
  /-- Red channel. -/
  r : Nat
  /-- Green channel. -/
  g : Nat
  /-- Blue channel. -/
  b : Nat
  /-- Alpha channel. -/
  a : Nat
deriving DecidableEq

/-- The raylib type `Image`: the pixel data (absent, `NULL`, when loading
failed) and the dimensions. -/
structure Image where
  /-- Pixel colours, when the image holds data. -/
  data : Option (Int → Int → Color)
  /-- Width in pixels. -/
  width : Int
  /-- Height in pixels. -/
  height : Int

/-- The raylib image functions `semana3.c` calls; they are not part of the
repository and are taken as parameters. -/
structure ImageLib where
  /-- `LoadImage(fileName)`. -/
  LoadImage : String → Image
  /-- `ImageResize(&image, newWidth, newHeight)`, as the resized image. -/
  ImageResize : Image → Int → Int → Image
  /-- `GetImageColor(image, x, y)`. -/
  GetImageColor : Image → Int → Int → Color

/-- The path of the seed image in `semana3.c`. -/
def seedPath : String := "images/Batman-Logo.png"

namespace semana3

/-- The global `logoImage` after the first two statements of `InitReactionDiffusion`. -/
def loadLogo (lib : ImageLib) : Image :=
  lib.ImageResize (lib.LoadImage seedPath) WIDTH HEIGHT

/-- The body of the loop nest of `InitReactionDiffusion` (`semana3.c`) at cell `(x, y)`. -/
def seedCell (lib : ImageLib) (logoImage : Image) (x y : Int) (s : Sim) : Sim :=
  let pixelColor := lib.GetImageColor logoImage x y
  if pixelColor.r < 128 then
    let s1 : Sim := { s with gridA := s.gridA.set x y 1 }
    { s1 with gridB := s1.gridB.set x y 0 }
  else
    let s1 : Sim := { s with gridA := s.gridA.set x y 0 }
    { s1 with gridB := s1.gridB.set x y 1 }

/-- The function `InitReactionDiffusion` of `semana3.c`. It returns `void`:
there is no error outcome. -/
def InitReactionDiffusion (lib : ImageLib) (s : Sim) : Sim :=
  forLoop 0 WIDTH (fun x s =>
    forLoop 0 HEIGHT (fun y s => seedCell lib (loadLogo lib) x y s) s) s

/-- The function `main` of `semana3.c`, for a window that asks to close after
`n` frames: the exit status and the final arrays. -/
def main (lib : ImageLib) (n : Nat) (r : Rng) : Int × Sim :=
  (0, (frames n (InitReactionDiffusion lib zeroSim, r)).1)

end semana3

/-- A concrete image library behaving as raylib does on a file that is either
missing (`file = none`) or holds a `WIDTH x HEIGHT` picture: a failed
`LoadImage` gives an image without data and of size `0 x 0`, `ImageResize`
leaves such an image alone, and `GetImageColor` answers the blank colour
outside the image. -/
def raylibOn (file : Option (Int → Int → Color)) : ImageLib :=
  { LoadImage := fun _ =>
      match file with
      | none => { data := none, width := 0, height := 0 }
      | some px => { data := some px, width := WIDTH, height := HEIGHT }
    ImageResize := fun img w h =>
      if img.data.isNone ∨ img.width = 0 ∨ img.height = 0 then img
      else { data := img.data, width := w, height := h }
    GetImageColor := fun img x y =>
      if 0 ≤ x ∧ x < img.width ∧ 0 ≤ y ∧ y < img.height then
        match img.data with
        | some px => px x y
        | none => { r := 0, g := 0, b := 0, a := 0 }
      else { r := 0, g := 0, b := 0, a := 0 } }

/-- A picture whose red channel is 127 on the left half and 128 on the right half. -/
def halfPicture : Int → Int → Color :=
  fun x _ => if x < 300 then { r := 127, g := 0, b := 0, a := 255 }
    else { r := 128, g := 0, b := 0, a := 255 }

/-! ## Rendering (`DrawSimulation`) -/

/-- The conversion `(unsigned char)` of a `float`: the truncated value, reduced
modulo 256 when it is out of range. -/
def toUChar (q : ℚ) : Nat := (truncToInt q % 256).toNat

/-- The window: the colour last drawn at each pixel, if any. -/
abbrev Screen := Int → Int → Option Color

/-- The raylib call `DrawRectangle(posX, posY, width, height, color)`. -/
def DrawRectangle (posX posY width height : Int) (color : Color) (scr : Screen) : Screen :=
  fun i j =>
    if posX ≤ i ∧ i < posX + width ∧ posY ≤ j ∧ j < posY + height then some color else scr i j

/-- The colour `DrawSimulation` of `main.c` and `semana3.c` builds from the
values of a cell: the cast `(unsigned char)` of the blue channel applies to the
sum, before the division by 2. -/
def cellColor (valueA valueB : ℚ) : Color :=
  { r := toUChar (valueA * 255)
    g := toUChar (valueB * 255)
    b := (toUChar (valueA * 255 + valueB * 255) / 2) % 256
    a := 255 }

/-- The colour expression of `main.c` and `semana3.c` with the cast
`(unsigned char)` of a `float` left open as `narrow` (C leaves the cast of an
out-of-range value undefined); `cellColor` is `cellColorWith toUChar`. -/
def cellColorWith (narrow : ℚ → Nat) (valueA valueB : ℚ) : Color :=
  { r := narrow (valueA * 255)
    g := narrow (valueB * 255)
    b := (narrow (valueA * 255 + valueB * 255) / 2) % 256
    a := 255 }

/-- The body of the loop nest of `DrawSimulation` (`main.c`, `semana3.c`) at cell `(x, y)`. -/
def drawCell (s : Sim) (x y : Int) (scr : Screen) : Screen :=
  let valueA := s.gridA x y
  let valueB := s.gridB x y
  DrawRectangle (x * SCALE) (y * SCALE) SCALE SCALE (cellColor valueA valueB) scr

/-- The function `DrawSimulation` of `main.c` and `semana3.c`. -/
def DrawSimulation (s : Sim) (scr : Screen) : Screen :=
  forLoop 0 WIDTH (fun x scr =>
    forLoop 0 HEIGHT (fun y scr => drawCell s x y scr) scr) scr

namespace semana2

/-- The colour `DrawSimulation` of `semana2.c` builds from the values of a
cell: the cast `(unsigned char)` of the blue channel applies to the halved sum. -/
def cellColor (valueA valueB : ℚ) : Color :=
  { r := toUChar (valueA * 255)
    g := toUChar (valueB * 255)
    b := toUChar ((valueA * 255 + valueB * 255) / 2)
    a := 255 }

/-- The body of the loop nest of `DrawSimulation` (`semana2.c`) at cell `(x, y)`. -/
def drawCell (s : Sim) (x y : Int) (scr : Screen) : Screen :=
  let valueA := s.gridA x y
  let valueB := s.gridB x y
  DrawRectangle (x * SCALE) (y * SCALE) SCALE SCALE (cellColor valueA valueB) scr

/-- The function `DrawSimulation` of `semana2.c`. -/
def DrawSimulation (s : Sim) (scr : Screen) : Screen :=
  forLoop 0 WIDTH (fun x scr =>
    forLoop 0 HEIGHT (fun y scr => drawCell s x y scr) scr) scr

end semana2

/-- A test state: A = 1 everywhere, B = 0 except B = 1 at the interior cell `(300, 300)`. -/
def spotSim : Sim :=
  { gridA := fun _ _ => 1, gridB := fun i j => if i = 300 ∧ j = 300 then 1 else 0,
    nextA := fun _ _ => 0, nextB := fun _ _ => 0 }

/-- A test state: A = 1 and B = 1 in every cell. -/
def onesSim : Sim :=
  { gridA := fun _ _ => 1, gridB := fun _ _ => 1, nextA := fun _ _ => 0, nextB := fun _ _ => 0 }

/-- A test state: A = 1.5 and B = -0.5 in every cell, both out of `[0, 1]`. -/
def overSim : Sim :=
  { gridA := fun _ _ => 3 / 2, gridB := fun _ _ => -(1 / 2),
    nextA := fun _ _ => 0, nextB := fun _ _ => 0 }

/-- The window before anything is drawn. -/
def blankScreen : Screen := fun _ _ => none

/-! ## Cell classes -/

/-- Cell `(x, y)` is a cell of the grid. -/
def inGrid (x y : Int) : Prop := 0 ≤ x ∧ x < WIDTH ∧ 0 ≤ y ∧ y < HEIGHT

/-- Cell `(x, y)` is an interior cell. -/
def interior (x y : Int) : Prop := 1 ≤ x ∧ x < WIDTH - 1 ∧ 1 ≤ y ∧ y < HEIGHT - 1

/-- Cell `(x, y)` is on the outermost ring of the grid. -/
def border (x y : Int) : Prop :=
  inGrid x y ∧ (x = 0 ∨ x = WIDTH - 1 ∨ y = 0 ∨ y = HEIGHT - 1)

instance (x y : Int) : Decidable (inGrid x y) :=
  inferInstanceAs (Decidable (0 ≤ x ∧ x < WIDTH ∧ 0 ≤ y ∧ y < HEIGHT))

instance (x y : Int) : Decidable (interior x y) :=
  inferInstanceAs (Decidable (1 ≤ x ∧ x < WIDTH - 1 ∧ 1 ≤ y ∧ y < HEIGHT - 1))

instance (x y : Int) : Decidable (border x y) :=
  inferInstanceAs (Decidable (inGrid x y ∧ (x = 0 ∨ x = WIDTH - 1 ∨ y = 0 ∨ y = HEIGHT - 1)))

instance (o : Int × Int) (x y : Int) : Decidable (inPatch o x y) :=
  inferInstanceAs (Decidable (o.1 ≤ x ∧ x < o.1 + 20 ∧ o.2 ≤ y ∧ y < o.2 + 20))

/-! ## The bounded region of the stepper -/

/-- The values of one cell lie in the region `A ≥ 0`, `B ≥ 0`, `A + B ≤ 2`. -/
def inRegion (a b : ℚ) : Prop := 0 ≤ a ∧ 0 ≤ b ∧ a + b ≤ 2

/-- Every cell of the live fields and every border cell of the next-step
buffers lies in the region `A ≥ 0`, `B ≥ 0`, `A + B ≤ 2`. -/
def Bounded (s : Sim) : Prop :=
  (∀ x y, inGrid x y → inRegion (s.gridA x y) (s.gridB x y)) ∧
  (∀ x y, border x y → inRegion (s.nextA x y) (s.nextB x y))

/-! ## The invariant of the patch loop -/

/-- The invariant of the patch loop before iteration `k`, started in `(g, r)`. -/
def SeedInv (g : Sim) (r : Rng) (k : Int) (st : Sim × Rng) : Prop :=
  st.2.draw = r.draw ∧ (st.2.calls : Int) = r.calls + 2 * k ∧
  st.1.gridA = g.gridA ∧ st.1.nextA = g.nextA ∧ st.1.nextB = g.nextB ∧
  ∀ i j,
    ((∃ m : Nat, (m : Int) < k ∧ inPatch (patchOrigin r m) i j ∧ i < WIDTH ∧ j < HEIGHT) →
      st.1.gridB i j = 1) ∧
    ((¬ ∃ m : Nat, (m : Int) < k ∧ inPatch (patchOrigin r m) i j ∧ i < WIDTH ∧ j < HEIGHT) →
      st.1.gridB i j = g.gridB i j)

/-! ## Loop lemmas -/

theorem mem_loopIndices (lo hi i : Int) : i ∈ loopIndices lo hi ↔ lo ≤ i ∧ i < hi := by
  unfold loopIndices
  simp only [List.mem_map, List.mem_range]
  constructor
  · rintro ⟨k, hk, rfl⟩
    omega
  · rintro ⟨h1, h2⟩
    exact ⟨(i - lo).toNat, by omega, by omega⟩

theorem foldl_invariant {σ α : Type} (Inv : σ → Prop) (f : σ → α → σ) (l : List α)
    (hstep : ∀ a s, a ∈ l → Inv s → Inv (f s a)) (s : σ) (h0 : Inv s) :
    Inv (l.foldl f s) := by
  induction l generalizing s with
  | nil => exact h0
  | cons a t ih =>
    simp only [List.foldl_cons]
    exact ih (fun b s hb hs => hstep b s (List.mem_cons_of_mem _ hb) hs) _
      (hstep a s (List.mem_cons_self _ _) h0)

/-- An invariant kept by every iteration is kept by the loop. -/
theorem forLoop_invariant {σ : Type} (Inv : σ → Prop) (lo hi : Int) (body : Int → σ → σ)
    (hstep : ∀ i s, lo ≤ i → i < hi → Inv s → Inv (body i s)) (s : σ) (h0 : Inv s) :
    Inv (forLoop lo hi body s) := by
  unfold forLoop
  apply foldl_invariant Inv _ _ _ s h0
  intro i s hi hs
  rw [mem_loopIndices] at hi
  exact hstep i s hi.1 hi.2 hs

theorem loopIndices_succ (lo hi : Int) (h : lo ≤ hi) :
    loopIndices lo (hi + 1) = loopIndices lo hi ++ [hi] := by
  unfold loopIndices
  have e : (hi + 1 - lo).toNat = (hi - lo).toNat + 1 := by omega
  rw [e, List.range_succ, List.map_append]
  simp only [List.map_cons, List.map_nil]
  congr 2
  omega

theorem forLoop_succ {σ : Type} (lo hi : Int) (h : lo ≤ hi) (body : Int → σ → σ) (s : σ) :
    forLoop lo (hi + 1) body s = body hi (forLoop lo hi body s) := by
  unfold forLoop
  rw [loopIndices_succ lo hi h, List.foldl_append]
  rfl

theorem forLoop_empty {σ : Type} (lo : Int) (body : Int → σ → σ) (s : σ) :
    forLoop lo lo body s = s := by
  unfold forLoop loopIndices
  simp

/-- Induction over the loop counter: `P i` holds before iteration `i`. -/
theorem forLoop_induction {σ : Type} (P : Int → σ → Prop) (lo hi : Int) (h : lo ≤ hi)
    (body : Int → σ → σ) (s : σ) (h0 : P lo s)
    (hstep : ∀ i s, lo ≤ i → i < hi → P i s → P (i + 1) (body i s)) :
    P hi (forLoop lo hi body s) := by
  have key : ∀ n : Nat, lo + n ≤ hi → P (lo + n) (forLoop lo (lo + n) body s) := by
    intro n
    induction n with
    | zero =>
      intro _
      simpa [forLoop_empty] using h0
    | succ n ih =>
      intro hn
      have hn1 : lo + (n : Int) ≤ hi := by push_cast at hn; omega
      have e : lo + ((n + 1 : Nat) : Int) = (lo + n) + 1 := by push_cast; ring
      rw [e, forLoop_succ lo (lo + n) (by omega)]
      exact hstep _ _ (by omega) (by push_cast at hn; omega) (ih hn1)
  have := key (hi - lo).toNat (by omega)
  have e : lo + ((hi - lo).toNat : Int) = hi := by omega
  rwa [e] at this

theorem forLoop_inner_writes {σ α : Type} (get : σ → Int → Int → α) (Inv : σ → Prop)
    (c : Int → Int → Bool) (v : Int → Int → α) (x ylo yhi : Int) (hy : ylo ≤ yhi) (body : Int → σ → σ)
    (hInv : ∀ y s, ylo ≤ y → y < yhi → Inv s → Inv (body y s))
    (hget : ∀ y s, ylo ≤ y → y < yhi → Inv s → ∀ i j,
      get (body y s) i j = if i = x ∧ j = y ∧ c x y = true then v x y else get s i j)
    (s : σ) (h0 : Inv s) :
    Inv (forLoop ylo yhi body s) ∧ ∀ i j, get (forLoop ylo yhi body s) i j =
      if i = x ∧ ylo ≤ j ∧ j < yhi ∧ c x j = true then v x j else get s i j := by
  refine forLoop_induction
    (fun y t => Inv t ∧ ∀ i j, get t i j =
      if i = x ∧ ylo ≤ j ∧ j < y ∧ c x j = true then v x j else get s i j)
    ylo yhi hy body s ⟨h0, ?_⟩ ?_
  · intro i j
    rw [if_neg]
    omega
  · rintro y t hy1 hy2 ⟨hI, hG⟩
    refine ⟨hInv y t hy1 hy2 hI, ?_⟩
    intro i j
    rw [hget y t hy1 hy2 hI i j, hG i j]
    by_cases hj : j = y
    · subst hj
      by_cases hc : i = x ∧ c x j = true
      · rw [if_pos ⟨hc.1, rfl, hc.2⟩, if_pos ⟨hc.1, hy1, by omega, hc.2⟩]
      · rw [if_neg (fun h => hc ⟨h.1, h.2.2⟩), if_neg (fun h => by omega),
          if_neg (fun h => hc ⟨h.1, h.2.2.2⟩)]
    · rw [if_neg (fun h => hj h.2.1)]
      by_cases hc : i = x ∧ ylo ≤ j ∧ j < y ∧ c x j = true
      · rw [if_pos hc, if_pos ⟨hc.1, hc.2.1, by omega, hc.2.2.2⟩]
      · rw [if_neg hc, if_neg (fun h => hc ⟨h.1, h.2.1, by omega, h.2.2.2⟩)]

/-- A loop nest whose body at `(x, y)` writes `v x y` to cell `(x, y)` of one
array (when the guard `c x y` holds) writes `v` over the whole rectangle. -/
theorem forLoop2_writes {σ α : Type} (get : σ → Int → Int → α) (Inv : σ → Prop)
    (c : Int → Int → Bool) (v : Int → Int → α) (xlo xhi ylo yhi : Int) (hx : xlo ≤ xhi) (hy : ylo ≤ yhi)
    (body : Int → Int → σ → σ)
    (hInv : ∀ x y s, xlo ≤ x → x < xhi → ylo ≤ y → y < yhi → Inv s → Inv (body x y s))
    (hget : ∀ x y s, xlo ≤ x → x < xhi → ylo ≤ y → y < yhi → Inv s → ∀ i j,
      get (body x y s) i j = if i = x ∧ j = y ∧ c x y = true then v x y else get s i j)
    (s : σ) (h0 : Inv s) :
    Inv (forLoop xlo xhi (fun x s => forLoop ylo yhi (fun y s => body x y s) s) s) ∧
    ∀ i j, get (forLoop xlo xhi (fun x s => forLoop ylo yhi (fun y s => body x y s) s) s) i j =
      if xlo ≤ i ∧ i < xhi ∧ ylo ≤ j ∧ j < yhi ∧ c i j = true then v i j else get s i j := by
  refine forLoop_induction
    (fun x t => Inv t ∧ ∀ i j, get t i j =
      if xlo ≤ i ∧ i < x ∧ ylo ≤ j ∧ j < yhi ∧ c i j = true then v i j else get s i j)
    xlo xhi hx _ s ⟨h0, ?_⟩ ?_
  · intro i j
    rw [if_neg]
    omega
  · rintro x t hx1 hx2 ⟨hI, hG⟩
    have inner := forLoop_inner_writes get Inv c v x ylo yhi hy (fun y s => body x y s)
      (fun y s h1 h2 => hInv x y s hx1 hx2 h1 h2)
      (fun y s h1 h2 => hget x y s hx1 hx2 h1 h2) t hI
    refine ⟨inner.1, ?_⟩
    intro i j
    rw [inner.2 i j, hG i j]
    by_cases hi : i = x
    · subst hi
      by_cases hc : ylo ≤ j ∧ j < yhi ∧ c i j = true
      · rw [if_pos ⟨rfl, hc⟩, if_pos ⟨hx1, by omega, hc⟩]
      · rw [if_neg (fun h => hc h.2), if_neg (fun h => by omega),
          if_neg (fun h => hc h.2.2)]
    · rw [if_neg (fun h => hi h.1)]
      by_cases hc : xlo ≤ i ∧ i < x ∧ ylo ≤ j ∧ j < yhi ∧ c i j = true
      · rw [if_pos hc, if_pos ⟨hc.1, by omega, hc.2.2⟩]
      · rw [if_neg hc, if_neg (fun h => hc ⟨h.1, by omega, h.2.2⟩)]

/-! ## The stepper, cell by cell -/

theorem stageInterior_spec (s : Sim) :
    (stageInterior s).gridA = s.gridA ∧ (stageInterior s).gridB = s.gridB ∧
    (∀ i j, (stageInterior s).nextA i j =
      if 1 ≤ i ∧ i < WIDTH - 1 ∧ 1 ≤ j ∧ j < HEIGHT - 1 then stagedA s.gridA s.gridB i j
      else s.nextA i j) ∧
    (∀ i j, (stageInterior s).nextB i j =
      if 1 ≤ i ∧ i < WIDTH - 1 ∧ 1 ≤ j ∧ j < HEIGHT - 1 then stagedB s.gridA s.gridB i j
      else s.nextB i j) := by
  have hA := forLoop2_writes Sim.nextA (fun t => t.gridA = s.gridA ∧ t.gridB = s.gridB)
    (fun _ _ => true) (stagedA s.gridA s.gridB) 1 (WIDTH - 1) 1 (HEIGHT - 1)
    (by unfold WIDTH; omega) (by unfold HEIGHT; omega) updateCell
    (fun x y t _ _ _ _ h => h)
    (fun x y t _ _ _ _ h i j => by
      simp only [updateCell, Grid.set, stagedA, h.1, h.2, and_true]) s ⟨rfl, rfl⟩
  have hB := forLoop2_writes Sim.nextB (fun t => t.gridA = s.gridA ∧ t.gridB = s.gridB)
    (fun _ _ => true) (stagedB s.gridA s.gridB) 1 (WIDTH - 1) 1 (HEIGHT - 1)
    (by unfold WIDTH; omega) (by unfold HEIGHT; omega) updateCell
    (fun x y t _ _ _ _ h => h)
    (fun x y t _ _ _ _ h i j => by
      simp only [updateCell, Grid.set, stagedB, h.1, h.2, and_true]) s ⟨rfl, rfl⟩
  simp only [and_true] at hA hB
  unfold stageInterior
  exact ⟨hA.1.1, hA.1.2, hA.2, hB.2⟩

theorem commit_spec (s : Sim) :
    (commit s).nextA = s.nextA ∧ (commit s).nextB = s.nextB ∧
    (∀ i j, (commit s).gridA i j =
      if 0 ≤ i ∧ i < WIDTH ∧ 0 ≤ j ∧ j < HEIGHT then s.nextA i j else s.gridA i j) ∧
    (∀ i j, (commit s).gridB i j =
      if 0 ≤ i ∧ i < WIDTH ∧ 0 ≤ j ∧ j < HEIGHT then s.nextB i j else s.gridB i j) := by
  have hA := forLoop2_writes Sim.gridA (fun t => t.nextA = s.nextA ∧ t.nextB = s.nextB)
    (fun _ _ => true) s.nextA 0 WIDTH 0 HEIGHT
    (by unfold WIDTH; omega) (by unfold HEIGHT; omega) commitCell
    (fun x y t _ _ _ _ h => h)
    (fun x y t _ _ _ _ h i j => by
      simp only [commitCell, Grid.set, h.1, h.2, and_true]) s ⟨rfl, rfl⟩
  have hB := forLoop2_writes Sim.gridB (fun t => t.nextA = s.nextA ∧ t.nextB = s.nextB)
    (fun _ _ => true) s.nextB 0 WIDTH 0 HEIGHT
    (by unfold WIDTH; omega) (by unfold HEIGHT; omega) commitCell
    (fun x y t _ _ _ _ h => h)
    (fun x y t _ _ _ _ h i j => by
      simp only [commitCell, Grid.set, h.1, h.2, and_true]) s ⟨rfl, rfl⟩
  simp only [and_true] at hA hB
  unfold commit
  exact ⟨hA.1.1, hA.1.2, hA.2, hB.2⟩

/-- What one call of `UpdateReactionDiffusion` leaves in the four arrays. -/
theorem UpdateReactionDiffusion_spec (s : Sim) :
    (∀ i j, (UpdateReactionDiffusion s).nextA i j =
      if 1 ≤ i ∧ i < WIDTH - 1 ∧ 1 ≤ j ∧ j < HEIGHT - 1 then stagedA s.gridA s.gridB i j
      else s.nextA i j) ∧
    (∀ i j, (UpdateReactionDiffusion s).nextB i j =
      if 1 ≤ i ∧ i < WIDTH - 1 ∧ 1 ≤ j ∧ j < HEIGHT - 1 then stagedB s.gridA s.gridB i j
      else s.nextB i j) ∧
    (∀ i j, (UpdateReactionDiffusion s).gridA i j =
      if 0 ≤ i ∧ i < WIDTH ∧ 0 ≤ j ∧ j < HEIGHT then (UpdateReactionDiffusion s).nextA i j
      else s.gridA i j) ∧
    (∀ i j, (UpdateReactionDiffusion s).gridB i j =
      if 0 ≤ i ∧ i < WIDTH ∧ 0 ≤ j ∧ j < HEIGHT then (UpdateReactionDiffusion s).nextB i j
      else s.gridB i j) := by
  obtain ⟨sA, sB, snA, snB⟩ := stageInterior_spec s
  obtain ⟨cnA, cnB, cA, cB⟩ := commit_spec (stageInterior s)
  unfold UpdateReactionDiffusion
  refine ⟨fun i j => ?_, fun i j => ?_, fun i j => ?_, fun i j => ?_⟩
  · rw [cnA, snA]
  · rw [cnB, snB]
  · rw [cA, cnA, sA]
  · rw [cB, cnB, sB]

theorem UpdateReactionDiffusion_interior (s : Sim) (x y : Int) (hx1 : 1 ≤ x)
    (hx2 : x < WIDTH - 1) (hy1 : 1 ≤ y) (hy2 : y < HEIGHT - 1) :
    (UpdateReactionDiffusion s).gridA x y = stagedA s.gridA s.gridB x y ∧
    (UpdateReactionDiffusion s).gridB x y = stagedB s.gridA s.gridB x y := by
  obtain ⟨nA, nB, gA, gB⟩ := UpdateReactionDiffusion_spec s
  have hg : 0 ≤ x ∧ x < WIDTH ∧ 0 ≤ y ∧ y < HEIGHT := by
    unfold WIDTH HEIGHT at *
    omega
  rw [gA, gB, if_pos hg, if_pos hg, nA, nB, if_pos ⟨hx1, hx2, hy1, hy2⟩,
    if_pos ⟨hx1, hx2, hy1, hy2⟩]
  exact ⟨rfl, rfl⟩

/-! ## C1: the update rule at interior cells -/

/-- C1: after one `UpdateReactionDiffusion`, every interior cell holds
`A' = a + dt*(lapA - a*b^2 + F*(1-a))` and `B' = b + dt*(lapB + a*b^2 - (F+K)*b)`
with `dt = 0.05`, `F = 0.03`, `K = 0.06`, where `a`, `b` and the four neighbours
are the values held before the step. -/
theorem update_rule_interior (s : Sim) (x y : Int) (hx1 : 1 ≤ x) (hx2 : x < WIDTH - 1)
    (hy1 : 1 ≤ y) (hy2 : y < HEIGHT - 1) :
    (UpdateReactionDiffusion s).gridA x y =
      s.gridA x y + 0.05 *
        ((s.gridA (x - 1) y + s.gridA (x + 1) y + s.gridA x (y - 1) + s.gridA x (y + 1)
            - 4 * s.gridA x y)
          - s.gridA x y * (s.gridB x y) ^ 2 + 0.03 * (1 - s.gridA x y)) ∧
    (UpdateReactionDiffusion s).gridB x y =
      s.gridB x y + 0.05 *
        ((s.gridB (x - 1) y + s.gridB (x + 1) y + s.gridB x (y - 1) + s.gridB x (y + 1)
            - 4 * s.gridB x y)
          + s.gridA x y * (s.gridB x y) ^ 2 - (0.03 + 0.06) * s.gridB x y) := by
  obtain ⟨hA, hB⟩ := UpdateReactionDiffusion_interior s x y hx1 hx2 hy1 hy2
  rw [hA, hB]
  unfold stagedA stagedB F K
  constructor <;> norm_num <;> ring

/-- C1, witness: in `spotSim` the spot cell `(300, 300)` goes to A = 0.95,
B = 0.8455, its neighbour `(301, 300)` to A = 1, B = 0.05, and the diagonal
cell `(301, 301)` stays at A = 1, B = 0. -/
theorem update_rule_interior_witness :
    ((UpdateReactionDiffusion spotSim).gridA 300 300 = 0.95 ∧
      (UpdateReactionDiffusion spotSim).gridB 300 300 = 0.8455) ∧
    ((UpdateReactionDiffusion spotSim).gridA 301 300 = 1 ∧
      (UpdateReactionDiffusion spotSim).gridB 301 300 = 0.05) ∧
    ((UpdateReactionDiffusion spotSim).gridA 301 301 = 1 ∧
      (UpdateReactionDiffusion spotSim).gridB 301 301 = 0) := by
  have h1 := update_rule_interior spotSim 300 300 (by decide) (by decide) (by decide) (by decide)
  have h2 := update_rule_interior spotSim 301 300 (by decide) (by decide) (by decide) (by decide)
  have h3 := update_rule_interior spotSim 301 301 (by decide) (by decide) (by decide) (by decide)
  refine ⟨⟨?_, ?_⟩, ⟨?_, ?_⟩, ⟨?_, ?_⟩⟩
  · rw [h1.1]; norm_num [spotSim]
  · rw [h1.2]; norm_num [spotSim]
  · rw [h2.1]; norm_num [spotSim]
  · rw [h2.2]; norm_num [spotSim]
  · rw [h3.1]; norm_num [spotSim]
  · rw [h3.2]; norm_num [spotSim]

/-! ## C2: the border is frozen after the first commit -/

theorem noiseCell_frame (s : Sim) (x y : Int) (hx1 : 1 ≤ x) (hx2 : x < WIDTH - 1)
    (hy1 : 1 ≤ y) (hy2 : y < HEIGHT - 1) (st : Sim × Rng)
    (h : st.1.nextA = s.nextA ∧ st.1.nextB = s.nextB ∧
      ∀ i j, ¬ interior i j → st.1.gridA i j = s.gridA i j ∧ st.1.gridB i j = s.gridB i j) :
    (noiseCell x y st).1.nextA = s.nextA ∧ (noiseCell x y st).1.nextB = s.nextB ∧
      ∀ i j, ¬ interior i j →
        (noiseCell x y st).1.gridA i j = s.gridA i j ∧
        (noiseCell x y st).1.gridB i j = s.gridB i j := by
  obtain ⟨h1, h2, h3⟩ := h
  unfold noiseCell GetRandomValue
  dsimp only
  split
  · refine ⟨h1, h2, fun i j hij => ?_⟩
    have hne : ¬ (i = x ∧ j = y) := by
      rintro ⟨rfl, rfl⟩
      exact hij ⟨hx1, hx2, hy1, hy2⟩
    simp only [Grid.set, if_neg hne]
    exact h3 i j hij
  · exact ⟨h1, h2, h3⟩

/-- The function `AddNoise` writes neither the next-step buffers nor any cell
outside the interior, whatever the random source answers. -/
theorem noiseRow_frame (s : Sim) (x : Int) (hx1 : 1 ≤ x) (hx2 : x < WIDTH - 1) (st : Sim × Rng)
    (h : st.1.nextA = s.nextA ∧ st.1.nextB = s.nextB ∧
      ∀ i j, ¬ interior i j → st.1.gridA i j = s.gridA i j ∧ st.1.gridB i j = s.gridB i j) :
    (forLoop 1 (HEIGHT - 1) (fun y st => noiseCell x y st) st).1.nextA = s.nextA ∧
    (forLoop 1 (HEIGHT - 1) (fun y st => noiseCell x y st) st).1.nextB = s.nextB ∧
      ∀ i j, ¬ interior i j →
        (forLoop 1 (HEIGHT - 1) (fun y st => noiseCell x y st) st).1.gridA i j = s.gridA i j ∧
        (forLoop 1 (HEIGHT - 1) (fun y st => noiseCell x y st) st).1.gridB i j = s.gridB i j :=
  forLoop_invariant
    (fun st : Sim × Rng => st.1.nextA = s.nextA ∧ st.1.nextB = s.nextB ∧
      ∀ i j, ¬ interior i j → st.1.gridA i j = s.gridA i j ∧ st.1.gridB i j = s.gridB i j)
    1 (HEIGHT - 1) (fun y st => noiseCell x y st)
    (fun y st hy1 hy2 hst => noiseCell_frame s x y hx1 hx2 hy1 hy2 st hst) st h

theorem AddNoise_eq (s : Sim) (r : Rng) :
    AddNoise s r = forLoop 1 (WIDTH - 1) (fun x st =>
      forLoop 1 (HEIGHT - 1) (fun y st => noiseCell x y st) st) (s, r) := rfl

theorem frame_eq (st : Sim × Rng) :
    frame st = (UpdateReactionDiffusion (AddNoise st.1 st.2).1, (AddNoise st.1 st.2).2) := rfl

theorem fst_pair {α β : Type} (a : α) (b : β) : (a, b).1 = a := rfl

theorem snd_pair {α β : Type} (a : α) (b : β) : (a, b).2 = b := rfl

theorem frame_fst (st : Sim × Rng) :
    (frame st).1 = UpdateReactionDiffusion (AddNoise st.1 st.2).1 :=
  (congrArg Prod.fst (frame_eq st)).trans (fst_pair _ _)

theorem frame_snd (st : Sim × Rng) : (frame st).2 = (AddNoise st.1 st.2).2 :=
  (congrArg Prod.snd (frame_eq st)).trans (snd_pair _ _)

theorem AddNoise_frame (s : Sim) (r : Rng) :
    (AddNoise s r).1.nextA = s.nextA ∧ (AddNoise s r).1.nextB = s.nextB ∧
      ∀ i j, ¬ interior i j →
        (AddNoise s r).1.gridA i j = s.gridA i j ∧ (AddNoise s r).1.gridB i j = s.gridB i j := by
  have key := forLoop_invariant
    (fun st : Sim × Rng => st.1.nextA = s.nextA ∧ st.1.nextB = s.nextB ∧
      ∀ i j, ¬ interior i j → st.1.gridA i j = s.gridA i j ∧ st.1.gridB i j = s.gridB i j)
    1 (WIDTH - 1) (fun x st => forLoop 1 (HEIGHT - 1) (fun y st => noiseCell x y st) st)
    (fun x st hx1 hx2 hst => noiseRow_frame s x hx1 hx2 st hst)
    (s, r) ⟨rfl, rfl, fun _ _ _ => ⟨rfl, rfl⟩⟩
  rw [AddNoise_eq]
  exact key

theorem border_not_interior (x y : Int) (hb : border x y) : ¬ interior x y := by
  unfold border inGrid at hb
  unfold interior
  omega

/-- After a frame started in a state whose border cells agree between the live
fields and the buffers, the border cells are unchanged and still agree. -/
theorem frame_border (st : Sim × Rng)
    (h : ∀ i j, border i j → st.1.gridA i j = st.1.nextA i j ∧ st.1.gridB i j = st.1.nextB i j) :
    ∀ i j, border i j →
      ((frame st).1.gridA i j = st.1.gridA i j ∧ (frame st).1.gridB i j = st.1.gridB i j) ∧
      ((frame st).1.gridA i j = (frame st).1.nextA i j ∧
        (frame st).1.gridB i j = (frame st).1.nextB i j) := by
  intro i j hb
  obtain ⟨nA, nB, -⟩ := AddNoise_frame st.1 st.2
  obtain ⟨uA, uB, gA, gB⟩ := UpdateReactionDiffusion_spec (AddNoise st.1 st.2).1
  have hni : ¬ (1 ≤ i ∧ i < WIDTH - 1 ∧ 1 ≤ j ∧ j < HEIGHT - 1) := border_not_interior i j hb
  have hg : 0 ≤ i ∧ i < WIDTH ∧ 0 ≤ j ∧ j < HEIGHT := hb.1
  have eA : (frame st).1.gridA i j = (frame st).1.nextA i j := by
    rw [frame_fst, gA, if_pos hg]
  have eB : (frame st).1.gridB i j = (frame st).1.nextB i j := by
    rw [frame_fst, gB, if_pos hg]
  have fA : (frame st).1.nextA i j = st.1.nextA i j := by
    rw [frame_fst, uA, if_neg hni, nA]
  have fB : (frame st).1.nextB i j = st.1.nextB i j := by
    rw [frame_fst, uB, if_neg hni, nB]
  exact ⟨⟨by rw [eA, fA, (h i j hb).1], by rw [eB, fB, (h i j hb).2]⟩, eA, eB⟩

theorem UpdateReactionDiffusion_border_agree (s : Sim) :
    ∀ i j, border i j →
      (UpdateReactionDiffusion s).gridA i j = (UpdateReactionDiffusion s).nextA i j ∧
      (UpdateReactionDiffusion s).gridB i j = (UpdateReactionDiffusion s).nextB i j := by
  intro i j hb
  obtain ⟨-, -, gA, gB⟩ := UpdateReactionDiffusion_spec s
  have hg : 0 ≤ i ∧ i < WIDTH ∧ 0 ≤ j ∧ j < HEIGHT := hb.1
  rw [gA, gB, if_pos hg, if_pos hg]
  exact ⟨rfl, rfl⟩

theorem frames_succ (n : Nat) (st : Sim × Rng) : frames (n + 1) st = frame (frames n st) :=
  Function.iterate_succ_apply' frame n st

theorem frames_zero (st : Sim × Rng) : frames 0 st = st := rfl

theorem frames_border (n : Nat) (st : Sim × Rng)
    (h : ∀ i j, border i j → st.1.gridA i j = st.1.nextA i j ∧ st.1.gridB i j = st.1.nextB i j) :
    ∀ i j, border i j →
      ((frames n st).1.gridA i j = st.1.gridA i j ∧ (frames n st).1.gridB i j = st.1.gridB i j) ∧
      ((frames n st).1.gridA i j = (frames n st).1.nextA i j ∧
        (frames n st).1.gridB i j = (frames n st).1.nextB i j) := by
  induction n with
  | zero =>
    intro i j hb
    rw [frames_zero]
    exact ⟨⟨rfl, rfl⟩, h i j hb⟩
  | succ n ih =>
    intro i j hb
    rw [frames_succ]
    have step := frame_border (frames n st) (fun a b hab => (ih a b hab).2) i j hb
    exact ⟨⟨step.1.1.trans (ih i j hb).1.1, step.1.2.trans (ih i j hb).1.2⟩, step.2⟩

/-- C2: in a state reached by a call of `UpdateReactionDiffusion`, a further
frame (`AddNoise`, then `UpdateReactionDiffusion`) leaves A and B unchanged at
every border cell, whatever the random source answers; hence the border values
are the same after any number `n` of further frames. -/
theorem border_frozen_after_first_commit (s0 : Sim) (r : Rng) (x y : Int) (hb : border x y) :
    ((frame (UpdateReactionDiffusion s0, r)).1.gridA x y = (UpdateReactionDiffusion s0).gridA x y ∧
      (frame (UpdateReactionDiffusion s0, r)).1.gridB x y =
        (UpdateReactionDiffusion s0).gridB x y) ∧
    ∀ n : Nat,
      (frames n (UpdateReactionDiffusion s0, r)).1.gridA x y =
        (UpdateReactionDiffusion s0).gridA x y ∧
      (frames n (UpdateReactionDiffusion s0, r)).1.gridB x y =
        (UpdateReactionDiffusion s0).gridB x y := by
  have agree := UpdateReactionDiffusion_border_agree s0
  exact ⟨(frame_border (UpdateReactionDiffusion s0, r) agree x y hb).1,
    fun n => (frames_border n (UpdateReactionDiffusion s0, r) agree x y hb).1⟩

/-- C2, witness: the border cell `(0, 7)` of the state reached from `spotSim`,
with the random source `lowRng`. -/
theorem border_frozen_after_first_commit_witness :
    border 0 7 ∧
    ((frame (UpdateReactionDiffusion spotSim, lowRng)).1.gridA 0 7 =
        (UpdateReactionDiffusion spotSim).gridA 0 7 ∧
      (frame (UpdateReactionDiffusion spotSim, lowRng)).1.gridB 0 7 =
        (UpdateReactionDiffusion spotSim).gridB 0 7) ∧
    ∀ n : Nat,
      (frames n (UpdateReactionDiffusion spotSim, lowRng)).1.gridA 0 7 =
        (UpdateReactionDiffusion spotSim).gridA 0 7 ∧
      (frames n (UpdateReactionDiffusion spotSim, lowRng)).1.gridB 0 7 =
        (UpdateReactionDiffusion spotSim).gridB 0 7 :=
  ⟨by decide, border_frozen_after_first_commit spotSim lowRng 0 7 (by decide)⟩

/-! ## Patch seeding, cell by cell -/

theorem fillUniform_eq (s : Sim) :
    fillUniform s = forLoop 0 WIDTH (fun x s =>
      forLoop 0 HEIGHT (fun y s => fillCell x y s) s) s := rfl

theorem fillUniform_spec (s : Sim) :
    (fillUniform s).nextA = s.nextA ∧ (fillUniform s).nextB = s.nextB ∧
    (∀ i j, (fillUniform s).gridA i j =
      if 0 ≤ i ∧ i < WIDTH ∧ 0 ≤ j ∧ j < HEIGHT then 1 else s.gridA i j) ∧
    (∀ i j, (fillUniform s).gridB i j =
      if 0 ≤ i ∧ i < WIDTH ∧ 0 ≤ j ∧ j < HEIGHT then 0 else s.gridB i j) := by
  have hA := forLoop2_writes Sim.gridA (fun t => t.nextA = s.nextA ∧ t.nextB = s.nextB)
    (fun _ _ => true) (fun _ _ => 1) 0 WIDTH 0 HEIGHT
    (by unfold WIDTH; omega) (by unfold HEIGHT; omega) fillCell
    (fun x y t _ _ _ _ h => h)
    (fun x y t _ _ _ _ h i j => by
      simp only [fillCell, Grid.set, and_true]) s ⟨rfl, rfl⟩
  have hB := forLoop2_writes Sim.gridB (fun _ => True)
    (fun _ _ => true) (fun _ _ => 0) 0 WIDTH 0 HEIGHT
    (by unfold WIDTH; omega) (by unfold HEIGHT; omega) fillCell
    (fun x y t _ _ _ _ h => h)
    (fun x y t _ _ _ _ h i j => by
      simp only [fillCell, Grid.set, and_true]) s trivial
  simp only [and_true] at hA hB
  rw [fillUniform_eq]
  exact ⟨hA.1.1, hA.1.2, hA.2, hB.2⟩

theorem paintPatch_eq (xStart yStart : Int) (s : Sim) :
    paintPatch xStart yStart s = forLoop xStart (xStart + 20) (fun x s =>
      forLoop yStart (yStart + 20) (fun y s => paintCell x y s) s) s := rfl

theorem paintCell_gridB (x y : Int) (t : Sim) (i j : Int) :
    (paintCell x y t).gridB i j =
      if i = x ∧ j = y ∧ decide (x < WIDTH ∧ y < HEIGHT) = true then 1 else t.gridB i j := by
  unfold paintCell
  by_cases hg : x < WIDTH ∧ y < HEIGHT
  · rw [if_pos hg]
    simp only [Grid.set, hg, and_self, decide_True, and_true]
  · rw [if_neg hg]
    simp only [hg, decide_False, Bool.false_eq_true, and_false, if_false]

theorem paintCell_others (x y : Int) (t : Sim) :
    (paintCell x y t).gridA = t.gridA ∧ (paintCell x y t).nextA = t.nextA ∧
    (paintCell x y t).nextB = t.nextB := by
  unfold paintCell
  split <;> exact ⟨rfl, rfl, rfl⟩

/-- One patch: `gridB` becomes 1 on the cells of the patch that pass the guard,
nothing else changes. -/
theorem paintPatch_spec (xStart yStart : Int) (s : Sim) :
    (paintPatch xStart yStart s).gridA = s.gridA ∧
    (paintPatch xStart yStart s).nextA = s.nextA ∧
    (paintPatch xStart yStart s).nextB = s.nextB ∧
    (∀ i j, (paintPatch xStart yStart s).gridB i j =
      if xStart ≤ i ∧ i < xStart + 20 ∧ yStart ≤ j ∧ j < yStart + 20 ∧
          decide (i < WIDTH ∧ j < HEIGHT) = true then 1 else s.gridB i j) := by
  have hB := forLoop2_writes Sim.gridB
    (fun t => t.gridA = s.gridA ∧ t.nextA = s.nextA ∧ t.nextB = s.nextB)
    (fun x y => decide (x < WIDTH ∧ y < HEIGHT)) (fun _ _ => 1)
    xStart (xStart + 20) yStart (yStart + 20) (by omega) (by omega) paintCell
    (fun x y t _ _ _ _ h =>
      ⟨(paintCell_others x y t).1.trans h.1, (paintCell_others x y t).2.1.trans h.2.1,
        (paintCell_others x y t).2.2.trans h.2.2⟩)
    (fun x y t _ _ _ _ _ i j => paintCell_gridB x y t i j) s ⟨rfl, rfl, rfl⟩
  rw [paintPatch_eq]
  exact ⟨hB.1.1, hB.1.2.1, hB.1.2.2, hB.2⟩

theorem seedPatch_eq (st : Sim × Rng) :
    seedPatch st =
      (paintPatch (st.2.draw st.2.calls 0 (WIDTH - 20))
          (st.2.draw (st.2.calls + 1) 0 (HEIGHT - 20)) st.1,
        { draw := st.2.draw, calls := st.2.calls + 1 + 1 }) := rfl

theorem InitReactionDiffusion_eq (s : Sim) (r : Rng) :
    InitReactionDiffusion s r = forLoop 0 100 (fun _ st => seedPatch st) (fillUniform s, r) := rfl

theorem SeedInv_step (g : Sim) (r : Rng) (k : Int) (hk : 0 ≤ k) (st : Sim × Rng)
    (h : SeedInv g r k st) : SeedInv g r (k + 1) (seedPatch st) := by
  obtain ⟨hd, hc, hA, hnA, hnB, hB⟩ := h
  obtain ⟨pA, pnA, pnB, pB⟩ := paintPatch_spec (st.2.draw st.2.calls 0 (WIDTH - 20))
    (st.2.draw (st.2.calls + 1) 0 (HEIGHT - 20)) st.1
  have hcn : st.2.calls = r.calls + 2 * k.toNat := by omega
  have ho : patchOrigin r k.toNat =
      (st.2.draw st.2.calls 0 (WIDTH - 20), st.2.draw (st.2.calls + 1) 0 (HEIGHT - 20)) := by
    unfold patchOrigin
    rw [hd, hcn]
  rw [seedPatch_eq]
  refine ⟨hd, ?_, pA.trans hA, pnA.trans hnA, pnB.trans hnB, fun i j => ⟨?_, ?_⟩⟩
  · show ((st.2.calls + 1 + 1 : Nat) : Int) = r.calls + 2 * (k + 1)
    push_cast
    omega
  · rintro ⟨m, hm, hp, hg⟩
    show (paintPatch _ _ st.1).gridB i j = 1
    rw [pB]
    by_cases hmk : (m : Int) < k
    · rw [(hB i j).1 ⟨m, hmk, hp, hg⟩, ite_self]
    · have em : m = k.toNat := by omega
      rw [em, ho] at hp
      unfold inPatch at hp
      rw [if_pos ⟨hp.1, hp.2.1, hp.2.2.1, hp.2.2.2, decide_eq_true hg⟩]
  · intro hne
    show (paintPatch _ _ st.1).gridB i j = g.gridB i j
    rw [pB]
    have hold : ¬ ∃ m : Nat, (m : Int) < k ∧ inPatch (patchOrigin r m) i j ∧ i < WIDTH ∧ j < HEIGHT := by
      rintro ⟨m, hm, hp⟩
      exact hne ⟨m, by omega, hp⟩
    rw [if_neg, (hB i j).2 hold]
    rintro ⟨h1, h2, h3, h4, h5⟩
    refine hne ⟨k.toNat, by omega, ?_, of_decide_eq_true h5⟩
    rw [ho]
    exact ⟨h1, h2, h3, h4⟩

theorem seedLoop_spec (g : Sim) (r : Rng) :
    SeedInv g r 100 (forLoop 0 100 (fun _ st => seedPatch st) (g, r)) := by
  refine forLoop_induction (SeedInv g r) 0 100 (by omega) (fun _ st => seedPatch st) (g, r) ?_ ?_
  · refine ⟨rfl, by simp, rfl, rfl, rfl, fun i j => ⟨?_, fun _ => rfl⟩⟩
    rintro ⟨m, hm, -⟩
    omega
  · intro k st hk1 _ hst
    exact SeedInv_step g r k hk1 st hst

/-- What `InitReactionDiffusion` leaves in the arrays: the buffers untouched,
A = 1 on the grid, and B = 1 exactly on the grid cells of the 100 patches. -/
theorem InitReactionDiffusion_spec (s : Sim) (r : Rng) :
    (InitReactionDiffusion s r).1.nextA = s.nextA ∧
    (InitReactionDiffusion s r).1.nextB = s.nextB ∧
    (∀ i j, 0 ≤ i ∧ i < WIDTH ∧ 0 ≤ j ∧ j < HEIGHT →
      (InitReactionDiffusion s r).1.gridA i j = 1) ∧
    (∀ i j, 0 ≤ i ∧ i < WIDTH ∧ 0 ≤ j ∧ j < HEIGHT →
      ((∃ m : Nat, m < 100 ∧ inPatch (patchOrigin r m) i j) →
        (InitReactionDiffusion s r).1.gridB i j = 1) ∧
      ((¬ ∃ m : Nat, m < 100 ∧ inPatch (patchOrigin r m) i j) →
        (InitReactionDiffusion s r).1.gridB i j = 0)) := by
  obtain ⟨-, -, hA, hnA, hnB, hB⟩ := seedLoop_spec (fillUniform s) r
  obtain ⟨fnA, fnB, fA, fB⟩ := fillUniform_spec s
  rw [InitReactionDiffusion_eq]
  refine ⟨hnA.trans fnA, hnB.trans fnB, fun i j hg => ?_, fun i j hg => ⟨?_, ?_⟩⟩
  · rw [hA, fA, if_pos hg]
  · rintro ⟨m, hm, hp⟩
    exact (hB i j).1 ⟨m, by omega, hp, hg.2.1, hg.2.2.2⟩
  · intro hne
    rw [(hB i j).2 (fun ⟨m, hm, hp, _⟩ => hne ⟨m, by omega, hp⟩), fB, if_pos hg]

/-! ## C5: a patch fits inside the grid -/

theorem length_loopIndices (lo hi : Int) : (loopIndices lo hi).length = (hi - lo).toNat := by
  unfold loopIndices
  rw [List.length_map, List.length_range]

theorem nodup_loopIndices (lo hi : Int) : (loopIndices lo hi).Nodup := by
  unfold loopIndices
  refine List.Nodup.map ?_ (List.nodup_range _)
  intro a b hab
  simpa using hab

theorem mem_patchCells (xStart yStart i j : Int) :
    (i, j) ∈ patchCells xStart yStart ↔
      xStart ≤ i ∧ i < xStart + 20 ∧ yStart ≤ j ∧ j < yStart + 20 := by
  unfold patchCells
  simp only [List.mem_flatMap, List.mem_map, mem_loopIndices, Prod.mk.injEq]
  constructor
  · rintro ⟨a, ha, b, hb, rfl, rfl⟩
    exact ⟨ha.1, ha.2, hb.1, hb.2⟩
  · rintro ⟨h1, h2, h3, h4⟩
    exact ⟨i, ⟨h1, h2⟩, j, ⟨h3, h4⟩, rfl, rfl⟩

theorem length_pairs (xs ys : List Int) :
    (xs.flatMap (fun x => ys.map (fun y => (x, y)))).length = xs.length * ys.length := by
  induction xs with
  | nil => simp
  | cons a t ih =>
    rw [List.flatMap_cons, List.length_append, ih, List.length_map, List.length_cons]
    ring

theorem nodup_pairs (xs ys : List Int) (hx : xs.Nodup) (hy : ys.Nodup) :
    (xs.flatMap (fun x => ys.map (fun y => (x, y)))).Nodup := by
  rw [List.nodup_flatMap]
  refine ⟨fun x _ => List.Nodup.map (fun a b hab => (Prod.mk.inj hab).2) hy, ?_⟩
  refine List.Pairwise.imp ?_ hx
  intro a b hab
  show List.Disjoint _ _
  intro c hca hcb
  rw [List.mem_map] at hca hcb
  obtain ⟨_, _, rfl⟩ := hca
  obtain ⟨_, _, h⟩ := hcb
  exact hab (Prod.mk.inj h).1.symm

theorem foldl_pairs {σ : Type} (f : Int → Int → σ → σ) (xs ys : List Int) (s : σ) :
    (xs.flatMap (fun x => ys.map (fun y => (x, y)))).foldl (fun t c => f c.1 c.2 t) s =
      xs.foldl (fun acc x => ys.foldl (fun acc y => f x y acc) acc) s := by
  induction xs generalizing s with
  | nil => rfl
  | cons a t ih =>
    rw [List.flatMap_cons, List.foldl_append, List.foldl_cons, List.foldl_map, ih]

/-- The two inner patch loops are the fold of the guarded write over `patchCells`. -/
theorem paintPatch_eq_foldl (xStart yStart : Int) (s : Sim) :
    paintPatch xStart yStart s =
      (patchCells xStart yStart).foldl (fun t c => paintCell c.1 c.2 t) s := by
  rw [paintPatch_eq]
  unfold patchCells
  rw [foldl_pairs]
  unfold forLoop
  rfl

/-- C5: for every origin within the range asked of the random source
(`0 ≤ xStart ≤ WIDTH-20`, `0 ≤ yStart ≤ HEIGHT-20`), the patch loops visit
exactly the cells `patchCells`, each of them inside the grid (so every index
is in bounds and the guard `x < WIDTH && y < HEIGHT` holds at each visit);
these are 400 distinct cells, and the patch sets B = 1 on exactly them. -/
theorem patch_fits_grid (xStart yStart : Int) (hx : 0 ≤ xStart ∧ xStart ≤ WIDTH - 20)
    (hy : 0 ≤ yStart ∧ yStart ≤ HEIGHT - 20) :
    (∀ s, paintPatch xStart yStart s =
      (patchCells xStart yStart).foldl (fun t c => paintCell c.1 c.2 t) s) ∧
    (∀ c ∈ patchCells xStart yStart,
      (0 ≤ c.1 ∧ c.1 < WIDTH ∧ 0 ≤ c.2 ∧ c.2 < HEIGHT) ∧ (c.1 < WIDTH ∧ c.2 < HEIGHT)) ∧
    (patchCells xStart yStart).length = 400 ∧ (patchCells xStart yStart).Nodup ∧
    (∀ s i j, (paintPatch xStart yStart s).gridB i j =
      if (i, j) ∈ patchCells xStart yStart then 1 else s.gridB i j) := by
  refine ⟨paintPatch_eq_foldl xStart yStart, ?_, ?_, ?_, ?_⟩
  · rintro ⟨i, j⟩ hc
    rw [mem_patchCells] at hc
    unfold WIDTH HEIGHT at *
    dsimp only
    omega
  · unfold patchCells
    rw [length_pairs, length_loopIndices, length_loopIndices]
    have e1 : (xStart + 20 - xStart).toNat = 20 := by omega
    have e2 : (yStart + 20 - yStart).toNat = 20 := by omega
    rw [e1, e2]
  · exact nodup_pairs _ _ (nodup_loopIndices _ _) (nodup_loopIndices _ _)
  · intro s i j
    rw [(paintPatch_spec xStart yStart s).2.2.2 i j]
    by_cases hc : (i, j) ∈ patchCells xStart yStart
    · rw [if_pos hc]
      rw [mem_patchCells] at hc
      rw [if_pos]
      refine ⟨hc.1, hc.2.1, hc.2.2.1, hc.2.2.2, decide_eq_true ?_⟩
      unfold WIDTH HEIGHT at *
      omega
    · rw [if_neg hc]
      rw [mem_patchCells] at hc
      rw [if_neg]
      exact fun h => hc ⟨h.1, h.2.1, h.2.2.1, h.2.2.2.1⟩

/-- C5, witness: the patch at the largest origin `(580, 580)`. -/
theorem patch_fits_grid_witness :
    (∀ c ∈ patchCells 580 580,
      (0 ≤ c.1 ∧ c.1 < WIDTH ∧ 0 ≤ c.2 ∧ c.2 < HEIGHT) ∧ (c.1 < WIDTH ∧ c.2 < HEIGHT)) ∧
    (patchCells 580 580).length = 400 ∧
    (paintPatch 580 580 zeroSim).gridB 599 599 = 1 :=
  have h := patch_fits_grid 580 580 (by decide) (by decide)
  ⟨h.2.1, h.2.2.1, by
    rw [h.2.2.2.2 zeroSim 599 599, if_pos]
    rw [mem_patchCells]
    decide⟩

/-! ## C4: the result of patch seeding -/

/-- C4: after `InitReactionDiffusion`, whatever 100 origins the random source
returned, every cell of the grid has A = 1, has B = 1 if and only if it lies in
at least one of the 100 patches of size `20 x 20`, and has B = 0 otherwise. -/
theorem patch_seeding_result (s : Sim) (r : Rng) (x y : Int) (hx : 0 ≤ x ∧ x < WIDTH)
    (hy : 0 ≤ y ∧ y < HEIGHT) :
    (InitReactionDiffusion s r).1.gridA x y = 1 ∧
    ((InitReactionDiffusion s r).1.gridB x y = 1 ↔
      ∃ m : Nat, m < 100 ∧ inPatch (patchOrigin r m) x y) ∧
    ((InitReactionDiffusion s r).1.gridB x y = 0 ↔
      ¬ ∃ m : Nat, m < 100 ∧ inPatch (patchOrigin r m) x y) := by
  obtain ⟨-, -, hA, hB⟩ := InitReactionDiffusion_spec s r
  have hg : 0 ≤ x ∧ x < WIDTH ∧ 0 ≤ y ∧ y < HEIGHT := ⟨hx.1, hx.2, hy.1, hy.2⟩
  refine ⟨hA x y hg, ⟨fun h1 => ?_, (hB x y hg).1⟩, ⟨fun h0 => ?_, (hB x y hg).2⟩⟩
  · by_contra hne
    rw [(hB x y hg).2 hne] at h1
    exact zero_ne_one h1
  · intro he
    rw [(hB x y hg).1 he] at h0
    exact one_ne_zero h0

theorem patchOrigin_lowRng (m : Nat) : patchOrigin lowRng m = (0, 0) := rfl

/-- C4, witness: with the source `lowRng` every patch has origin `(0, 0)`, so
cell `(5, 5)` is seeded A = 1, B = 1 and cell `(300, 300)` is seeded A = 1, B = 0. -/
theorem patch_seeding_result_witness :
    ((InitReactionDiffusion zeroSim lowRng).1.gridA 5 5 = 1 ∧
      (InitReactionDiffusion zeroSim lowRng).1.gridB 5 5 = 1) ∧
    ((InitReactionDiffusion zeroSim lowRng).1.gridA 300 300 = 1 ∧
      (InitReactionDiffusion zeroSim lowRng).1.gridB 300 300 = 0) := by
  have h1 := patch_seeding_result zeroSim lowRng 5 5 (by decide) (by decide)
  have h2 := patch_seeding_result zeroSim lowRng 300 300 (by decide) (by decide)
  refine ⟨⟨h1.1, h1.2.1.2 ⟨0, by decide, ?_⟩⟩, h2.1, h2.2.2.2 ?_⟩
  · rw [patchOrigin_lowRng]
    decide
  · rintro ⟨m, -, hp⟩
    rw [patchOrigin_lowRng] at hp
    revert hp
    decide

/-! ## C3: the border after the first step -/

/-- The stepper overwrites every border cell with the buffers' border value. -/
theorem UpdateReactionDiffusion_border (s : Sim) (x y : Int) (hb : border x y) :
    (UpdateReactionDiffusion s).gridA x y = s.nextA x y ∧
    (UpdateReactionDiffusion s).gridB x y = s.nextB x y := by
  obtain ⟨nA, nB, gA, gB⟩ := UpdateReactionDiffusion_spec s
  have hni : ¬ (1 ≤ x ∧ x < WIDTH - 1 ∧ 1 ≤ y ∧ y < HEIGHT - 1) := border_not_interior x y hb
  have hg : 0 ≤ x ∧ x < WIDTH ∧ 0 ≤ y ∧ y < HEIGHT := hb.1
  rw [gA, gB, if_pos hg, if_pos hg, nA, nB, if_neg hni, if_neg hni]
  exact ⟨rfl, rfl⟩

/-- A frame leaves in every border cell the value the buffers held there. -/
theorem frame_border_value (st : Sim × Rng) (x y : Int) (hb : border x y) :
    (frame st).1.gridA x y = st.1.nextA x y ∧ (frame st).1.gridB x y = st.1.nextB x y := by
  obtain ⟨nA, nB, -⟩ := AddNoise_frame st.1 st.2
  obtain ⟨uA, uB⟩ := UpdateReactionDiffusion_border (AddNoise st.1 st.2).1 x y hb
  rw [frame_fst, uA, uB, nA, nB]
  exact ⟨rfl, rfl⟩

/-- C3, as amended: from the state after `InitReactionDiffusion` (buffers still
zero), the first `UpdateReactionDiffusion` leaves 0 in every border cell of
`gridA` and `gridB`, the value of the zero-initialised buffers, in place of the
seeded A = 1 and the seeded B; the same holds when `AddNoise` runs before it,
as in the first frame of `main`. -/
theorem border_zero_after_first_step (r : Rng) (x y : Int) (hb : border x y) :
    (InitReactionDiffusion zeroSim r).1.gridA x y = 1 ∧
    ((UpdateReactionDiffusion (InitReactionDiffusion zeroSim r).1).gridA x y = 0 ∧
      (UpdateReactionDiffusion (InitReactionDiffusion zeroSim r).1).gridB x y = 0) ∧
    ((frame (InitReactionDiffusion zeroSim r)).1.gridA x y = 0 ∧
      (frame (InitReactionDiffusion zeroSim r)).1.gridB x y = 0) := by
  obtain ⟨nA, nB, hA, -⟩ := InitReactionDiffusion_spec zeroSim r
  obtain ⟨uA, uB⟩ := UpdateReactionDiffusion_border (InitReactionDiffusion zeroSim r).1 x y hb
  obtain ⟨fA, fB⟩ := frame_border_value (InitReactionDiffusion zeroSim r) x y hb
  refine ⟨hA x y hb.1, ⟨?_, ?_⟩, ?_, ?_⟩
  · rw [uA, nA]
    rfl
  · rw [uB, nB]
    rfl
  · rw [fA, nA]
    rfl
  · rw [fB, nB]
    rfl

/-- C3, witness of the amended claim: the corner cell `(0, 0)` with the source `lowRng`. -/
theorem border_zero_after_first_step_witness :
    border 0 0 ∧
    (InitReactionDiffusion zeroSim lowRng).1.gridA 0 0 = 1 ∧
    ((UpdateReactionDiffusion (InitReactionDiffusion zeroSim lowRng).1).gridA 0 0 = 0 ∧
      (UpdateReactionDiffusion (InitReactionDiffusion zeroSim lowRng).1).gridB 0 0 = 0) ∧
    ((frame (InitReactionDiffusion zeroSim lowRng)).1.gridA 0 0 = 0 ∧
      (frame (InitReactionDiffusion zeroSim lowRng)).1.gridB 0 0 = 0) :=
  ⟨by decide, border_zero_after_first_step lowRng 0 0 (by decide)⟩

/-- C3, counterexample: with the source `lowRng` the corner cell `(0, 0)` is a
border cell seeded A = 1, B = 1 (it lies in a patch), and after the first
`UpdateReactionDiffusion` it holds A = 0, B = 0: it did not keep its initial value. -/
theorem border_not_kept_counterexample :
    border 0 0 ∧
    ((InitReactionDiffusion zeroSim lowRng).1.gridA 0 0 = 1 ∧
      (InitReactionDiffusion zeroSim lowRng).1.gridB 0 0 = 1) ∧
    ((UpdateReactionDiffusion (InitReactionDiffusion zeroSim lowRng).1).gridA 0 0 ≠
        (InitReactionDiffusion zeroSim lowRng).1.gridA 0 0 ∧
      (UpdateReactionDiffusion (InitReactionDiffusion zeroSim lowRng).1).gridB 0 0 ≠
        (InitReactionDiffusion zeroSim lowRng).1.gridB 0 0) := by
  obtain ⟨nA, nB, hA, hB⟩ := InitReactionDiffusion_spec zeroSim lowRng
  have hb : border 0 0 := by decide
  obtain ⟨uA, uB⟩ := UpdateReactionDiffusion_border (InitReactionDiffusion zeroSim lowRng).1 0 0 hb
  have eA : (InitReactionDiffusion zeroSim lowRng).1.gridA 0 0 = 1 := hA 0 0 hb.1
  have eB : (InitReactionDiffusion zeroSim lowRng).1.gridB 0 0 = 1 :=
    (hB 0 0 hb.1).1 ⟨0, by decide, by rw [patchOrigin_lowRng]; decide⟩
  refine ⟨hb, ⟨eA, eB⟩, ?_, ?_⟩
  · rw [uA, nA, eA]
    exact zero_ne_one
  · rw [uB, nB, eB]
    exact zero_ne_one

/-! ## C6: image-derived seeding follows the threshold rule -/

theorem semana3_InitReactionDiffusion_eq (lib : ImageLib) (s : Sim) :
    semana3.InitReactionDiffusion lib s = forLoop 0 WIDTH (fun x s =>
      forLoop 0 HEIGHT (fun y s => semana3.seedCell lib (semana3.loadLogo lib) x y s) s) s := rfl

theorem semana3_seedCell_gridA (lib : ImageLib) (img : Image) (x y : Int) (t : Sim) (i j : Int) :
    (semana3.seedCell lib img x y t).gridA i j =
      if i = x ∧ j = y ∧ true = true then
        (if (lib.GetImageColor img x y).r < 128 then 1 else 0) else t.gridA i j := by
  unfold semana3.seedCell
  dsimp only
  split <;> simp only [Grid.set, and_true]

theorem semana3_seedCell_gridB (lib : ImageLib) (img : Image) (x y : Int) (t : Sim) (i j : Int) :
    (semana3.seedCell lib img x y t).gridB i j =
      if i = x ∧ j = y ∧ true = true then
        (if (lib.GetImageColor img x y).r < 128 then 0 else 1) else t.gridB i j := by
  unfold semana3.seedCell
  dsimp only
  split <;> simp only [Grid.set, and_true]

theorem semana3_seedCell_next (lib : ImageLib) (img : Image) (x y : Int) (t : Sim) :
    (semana3.seedCell lib img x y t).nextA = t.nextA ∧
    (semana3.seedCell lib img x y t).nextB = t.nextB := by
  unfold semana3.seedCell
  dsimp only
  split <;> exact ⟨rfl, rfl⟩

/-- What `InitReactionDiffusion` of `semana3.c` leaves in the arrays. -/
theorem semana3_InitReactionDiffusion_spec (lib : ImageLib) (s : Sim) :
    (semana3.InitReactionDiffusion lib s).nextA = s.nextA ∧
    (semana3.InitReactionDiffusion lib s).nextB = s.nextB ∧
    (∀ i j, (semana3.InitReactionDiffusion lib s).gridA i j =
      if 0 ≤ i ∧ i < WIDTH ∧ 0 ≤ j ∧ j < HEIGHT then
        (if (lib.GetImageColor (semana3.loadLogo lib) i j).r < 128 then 1 else 0)
      else s.gridA i j) ∧
    (∀ i j, (semana3.InitReactionDiffusion lib s).gridB i j =
      if 0 ≤ i ∧ i < WIDTH ∧ 0 ≤ j ∧ j < HEIGHT then
        (if (lib.GetImageColor (semana3.loadLogo lib) i j).r < 128 then 0 else 1)
      else s.gridB i j) := by
  have hA := forLoop2_writes Sim.gridA (fun t => t.nextA = s.nextA ∧ t.nextB = s.nextB)
    (fun _ _ => true)
    (fun x y => if (lib.GetImageColor (semana3.loadLogo lib) x y).r < 128 then 1 else 0)
    0 WIDTH 0 HEIGHT (by unfold WIDTH; omega) (by unfold HEIGHT; omega)
    (semana3.seedCell lib (semana3.loadLogo lib))
    (fun x y t _ _ _ _ h =>
      ⟨(semana3_seedCell_next lib _ x y t).1.trans h.1,
        (semana3_seedCell_next lib _ x y t).2.trans h.2⟩)
    (fun x y t _ _ _ _ _ i j => semana3_seedCell_gridA lib _ x y t i j) s ⟨rfl, rfl⟩
  have hB := forLoop2_writes Sim.gridB (fun _ => True)
    (fun _ _ => true)
    (fun x y => if (lib.GetImageColor (semana3.loadLogo lib) x y).r < 128 then 0 else 1)
    0 WIDTH 0 HEIGHT (by unfold WIDTH; omega) (by unfold HEIGHT; omega)
    (semana3.seedCell lib (semana3.loadLogo lib))
    (fun x y t _ _ _ _ h => h)
    (fun x y t _ _ _ _ _ i j => semana3_seedCell_gridB lib _ x y t i j) s trivial
  simp only [and_true] at hA hB
  rw [semana3_InitReactionDiffusion_eq]
  exact ⟨hA.1.1, hA.1.2, hA.2, hB.2⟩

/-- C6: after `InitReactionDiffusion` of `semana3.c`, every cell `(x, y)` of the
grid is A = 1, B = 0 when the red channel of pixel `(x, y)` of the resized
image is below 128, and A = 0, B = 1 otherwise; in both cases A + B = 1. -/
theorem image_seeding_threshold (lib : ImageLib) (s : Sim) (x y : Int)
    (hx : 0 ≤ x ∧ x < WIDTH) (hy : 0 ≤ y ∧ y < HEIGHT) :
    ((lib.GetImageColor (lib.ImageResize (lib.LoadImage seedPath) WIDTH HEIGHT) x y).r < 128 →
      (semana3.InitReactionDiffusion lib s).gridA x y = 1 ∧
      (semana3.InitReactionDiffusion lib s).gridB x y = 0) ∧
    (128 ≤ (lib.GetImageColor (lib.ImageResize (lib.LoadImage seedPath) WIDTH HEIGHT) x y).r →
      (semana3.InitReactionDiffusion lib s).gridA x y = 0 ∧
      (semana3.InitReactionDiffusion lib s).gridB x y = 1) ∧
    (semana3.InitReactionDiffusion lib s).gridA x y +
      (semana3.InitReactionDiffusion lib s).gridB x y = 1 := by
  obtain ⟨-, -, hA, hB⟩ := semana3_InitReactionDiffusion_spec lib s
  have hg : 0 ≤ x ∧ x < WIDTH ∧ 0 ≤ y ∧ y < HEIGHT := ⟨hx.1, hx.2, hy.1, hy.2⟩
  have eA := hA x y
  have eB := hB x y
  rw [if_pos hg] at eA eB
  rw [eA, eB]
  have el : semana3.loadLogo lib = lib.ImageResize (lib.LoadImage seedPath) WIDTH HEIGHT := rfl
  rw [el]
  refine ⟨fun h => ?_, fun h => ?_, ?_⟩
  · rw [if_pos h, if_pos h]
    exact ⟨rfl, rfl⟩
  · rw [if_neg (by omega), if_neg (by omega)]
    exact ⟨rfl, rfl⟩
  · split <;> norm_num

theorem raylibOn_half_color (x y : Int) (hx : 0 ≤ x ∧ x < WIDTH) (hy : 0 ≤ y ∧ y < HEIGHT) :
    (raylibOn (some halfPicture)).GetImageColor
      ((raylibOn (some halfPicture)).ImageResize
        ((raylibOn (some halfPicture)).LoadImage seedPath) WIDTH HEIGHT) x y =
      halfPicture x y := by
  simp [raylibOn, WIDTH, HEIGHT] at *
  omega

/-- C6, witness: for the picture `halfPicture`, cell `(299, 0)` (red 127) is
seeded A = 1, B = 0 and cell `(300, 0)` (red 128) is seeded A = 0, B = 1. -/
theorem image_seeding_threshold_witness :
    ((semana3.InitReactionDiffusion (raylibOn (some halfPicture)) zeroSim).gridA 299 0 = 1 ∧
      (semana3.InitReactionDiffusion (raylibOn (some halfPicture)) zeroSim).gridB 299 0 = 0) ∧
    ((semana3.InitReactionDiffusion (raylibOn (some halfPicture)) zeroSim).gridA 300 0 = 0 ∧
      (semana3.InitReactionDiffusion (raylibOn (some halfPicture)) zeroSim).gridB 300 0 = 1) := by
  have h1 := image_seeding_threshold (raylibOn (some halfPicture)) zeroSim 299 0
    (by decide) (by decide)
  have h2 := image_seeding_threshold (raylibOn (some halfPicture)) zeroSim 300 0
    (by decide) (by decide)
  rw [raylibOn_half_color 299 0 (by decide) (by decide)] at h1
  rw [raylibOn_half_color 300 0 (by decide) (by decide)] at h2
  exact ⟨h1.1 (by decide), h2.2.1 (by decide)⟩

/-! ## C7: a failed image load raises no error -/

theorem semana3_main_eq (lib : ImageLib) (n : Nat) (r : Rng) :
    semana3.main lib n r = (0, (frames n (semana3.InitReactionDiffusion lib zeroSim, r)).1) := rfl

theorem frames_one (st : Sim × Rng) : frames 1 st = frame st := by
  rw [frames_succ, frames_zero]

/-- C7, as amended: `InitReactionDiffusion` of `semana3.c` has no error outcome.
Whatever the image library answers, a failed load included, every cell of the
grid is seeded with A = 1, B = 0 or with A = 0, B = 1 (with A = 1, B = 0 where
the library reports red = 0, as raylib does for an image without data), and
`main` runs its `n` frames from that grid and returns 0. -/
theorem failed_load_still_seeds (lib : ImageLib) (n : Nat) (r : Rng) (x y : Int)
    (hx : 0 ≤ x ∧ x < WIDTH) (hy : 0 ≤ y ∧ y < HEIGHT) :
    (((semana3.InitReactionDiffusion lib zeroSim).gridA x y = 1 ∧
        (semana3.InitReactionDiffusion lib zeroSim).gridB x y = 0) ∨
      ((semana3.InitReactionDiffusion lib zeroSim).gridA x y = 0 ∧
        (semana3.InitReactionDiffusion lib zeroSim).gridB x y = 1)) ∧
    ((lib.GetImageColor (lib.ImageResize (lib.LoadImage seedPath) WIDTH HEIGHT) x y).r = 0 →
      (semana3.InitReactionDiffusion lib zeroSim).gridA x y = 1 ∧
      (semana3.InitReactionDiffusion lib zeroSim).gridB x y = 0) ∧
    semana3.main lib n r =
      (0, (frames n (semana3.InitReactionDiffusion lib zeroSim, r)).1) := by
  obtain ⟨-, -, hA, hB⟩ := semana3_InitReactionDiffusion_spec lib zeroSim
  have hg : 0 ≤ x ∧ x < WIDTH ∧ 0 ≤ y ∧ y < HEIGHT := ⟨hx.1, hx.2, hy.1, hy.2⟩
  have eA := hA x y
  have eB := hB x y
  rw [if_pos hg] at eA eB
  have el : semana3.loadLogo lib = lib.ImageResize (lib.LoadImage seedPath) WIDTH HEIGHT := rfl
  rw [el] at eA eB
  refine ⟨?_, fun h0 => ?_, semana3_main_eq lib n r⟩
  · by_cases h :
      (lib.GetImageColor (lib.ImageResize (lib.LoadImage seedPath) WIDTH HEIGHT) x y).r < 128
    · rw [if_pos h] at eA eB
      exact Or.inl ⟨eA, eB⟩
    · rw [if_neg h] at eA eB
      exact Or.inr ⟨eA, eB⟩
  · rw [if_pos (by omega)] at eA eB
    exact ⟨eA, eB⟩

theorem raylibOn_none_color (x y : Int) :
    (raylibOn none).GetImageColor
      ((raylibOn none).ImageResize ((raylibOn none).LoadImage seedPath) WIDTH HEIGHT) x y =
      { r := 0, g := 0, b := 0, a := 0 } := by
  simp [raylibOn]

/-- C7, witness of the amended claim: the library `raylibOn none`, whose load
fails, at cell `(300, 300)` and for one frame. -/
theorem failed_load_still_seeds_witness :
    ((raylibOn none).LoadImage seedPath).data = none ∧
    ((semana3.InitReactionDiffusion (raylibOn none) zeroSim).gridA 300 300 = 1 ∧
      (semana3.InitReactionDiffusion (raylibOn none) zeroSim).gridB 300 300 = 0) ∧
    semana3.main (raylibOn none) 1 lowRng =
      (0, (frames 1 (semana3.InitReactionDiffusion (raylibOn none) zeroSim, lowRng)).1) := by
  have h := failed_load_still_seeds (raylibOn none) 1 lowRng 300 300 (by decide) (by decide)
  refine ⟨rfl, h.2.1 ?_, h.2.2⟩
  rw [raylibOn_none_color]

/-- C7, counterexample: when the load fails (`raylibOn none`: no pixel data),
`InitReactionDiffusion` of `semana3.c` still yields a seeded grid (A = 1, B = 0
at cell `(300, 300)` and at the corner `(0, 0)`), and `main` returns 0 after
running a frame on it: the corner cell, seeded A = 1, then holds the buffer's 0. -/
theorem failed_load_counterexample :
    ((raylibOn none).LoadImage seedPath).data = none ∧
    ((semana3.InitReactionDiffusion (raylibOn none) zeroSim).gridA 300 300 = 1 ∧
      (semana3.InitReactionDiffusion (raylibOn none) zeroSim).gridB 300 300 = 0) ∧
    (semana3.InitReactionDiffusion (raylibOn none) zeroSim).gridA 0 0 = 1 ∧
    (semana3.main (raylibOn none) 1 lowRng).1 = 0 ∧
    (semana3.main (raylibOn none) 1 lowRng).2.gridA 0 0 = 0 := by
  obtain ⟨nA, -, hA, hB⟩ := semana3_InitReactionDiffusion_spec (raylibOn none) zeroSim
  have el : semana3.loadLogo (raylibOn none) =
      (raylibOn none).ImageResize ((raylibOn none).LoadImage seedPath) WIDTH HEIGHT := rfl
  have eA := hA 300 300
  have eB := hB 300 300
  have eC := hA 0 0
  rw [if_pos (by decide), el, raylibOn_none_color, if_pos (by decide)] at eA eB eC
  have hb : border 0 0 := by decide
  have hf := (frame_border_value
    (semana3.InitReactionDiffusion (raylibOn none) zeroSim, lowRng) 0 0 hb).1
  rw [fst_pair, nA] at hf
  refine ⟨rfl, ⟨eA, eB⟩, eC, ?_, ?_⟩
  · rw [semana3_main_eq, fst_pair]
  · rw [semana3_main_eq, snd_pair, frames_one, hf]
    rfl

/-! ## C8: the noise offsets -/

theorem truncToInt_tenth : truncToInt (1 / 10) = 0 := by
  unfold truncToInt
  norm_num
  decide

theorem truncToInt_neg_tenth : truncToInt (-(1 / 10)) = 0 := by
  unfold truncToInt
  norm_num
  decide

theorem Grid.set_add_zero (g : Grid) (x y : Int) : g.set x y (g x y + ((0 : Int) : ℚ)) = g := by
  funext i j
  unfold Grid.set
  split
  · next h => rw [h.1, h.2, Int.cast_zero, add_zero]
  · rfl

/-- With a source that answers within the range asked for, the two noise draws
`GetRandomValue(-0.1f, 0.1f)` are draws from the integer range `0 .. 0`: one
visit of `AddNoise` to a cell changes neither array. -/
theorem noiseCell_unchanged (r : Rng) (hr : r.InRange) (x y : Int) (st : Sim × Rng)
    (hd : st.2.draw = r.draw) :
    (noiseCell x y st).1 = st.1 ∧ (noiseCell x y st).2.draw = r.draw := by
  have z : ∀ n, st.2.draw n 0 0 = 0 := by
    intro n
    have := hr n 0 0 (le_refl 0)
    rw [hd]
    omega
  unfold noiseCell GetRandomValue
  dsimp only
  rw [truncToInt_tenth, truncToInt_neg_tenth]
  split
  · dsimp only
    rw [z, z, Grid.set_add_zero, Grid.set_add_zero]
    exact ⟨rfl, hd⟩
  · exact ⟨rfl, hd⟩

theorem AddNoise_unchanged (s : Sim) (r : Rng) (hr : r.InRange) : (AddNoise s r).1 = s := by
  have key := forLoop_invariant
    (fun st : Sim × Rng => st.1 = s ∧ st.2.draw = r.draw)
    1 (WIDTH - 1) (fun x st => forLoop 1 (HEIGHT - 1) (fun y st => noiseCell x y st) st)
    (fun x st _ _ hst => forLoop_invariant
      (fun st : Sim × Rng => st.1 = s ∧ st.2.draw = r.draw)
      1 (HEIGHT - 1) (fun y st => noiseCell x y st)
      (fun y st _ _ hst =>
        ⟨(noiseCell_unchanged r hr x y st hst.2).1.trans hst.1,
          (noiseCell_unchanged r hr x y st hst.2).2⟩) st hst)
    (s, r) ⟨rfl, rfl⟩
  rw [AddNoise_eq]
  exact key.1

/-- C8, the code at odds with the claim: for every random source that answers
within the range it is asked for, `AddNoise` leaves A and B unchanged at every
cell, selected or not: the offset it adds is always 0, never a non-zero value
of `[-0.1, 0.1]`. -/
theorem noise_offset_always_zero (s : Sim) (r : Rng) (hr : r.InRange) (x y : Int) :
    (AddNoise s r).1.gridA x y - s.gridA x y = 0 ∧
    (AddNoise s r).1.gridB x y - s.gridB x y = 0 := by
  rw [AddNoise_unchanged s r hr]
  exact ⟨sub_self _, sub_self _⟩

theorem lowRng_inRange : lowRng.InRange := fun _ _ _ h => ⟨le_refl _, h⟩

/-- C8, witness: the source `lowRng` answers 0 to every selection draw, so it
selects every interior cell, and still the interior cell `(300, 300)` of
`spotSim` is unchanged. -/
theorem noise_offset_always_zero_witness :
    lowRng.InRange ∧ (∀ n, lowRng.draw n 0 100 < 5) ∧
    (AddNoise spotSim lowRng).1.gridA 300 300 - spotSim.gridA 300 300 = 0 ∧
    (AddNoise spotSim lowRng).1.gridB 300 300 - spotSim.gridB 300 300 = 0 :=
  ⟨lowRng_inRange, fun _ => (by decide : (0 : Int) < 5),
    noise_offset_always_zero spotSim lowRng lowRng_inRange 300 300⟩

/-! ## C9: the selection probability -/

theorem length_selectionOutcomes : selectionOutcomes.length = 101 := by
  unfold selectionOutcomes
  rw [length_loopIndices]
  rfl

theorem length_selectedOutcomes : selectedOutcomes.length = 5 := by
  decide

/-- C9, the code at odds with the claim: the selection draw
`GetRandomValue(0, 100)` has 101 equally likely outcomes, of which the 5
outcomes `0 .. 4` pass the test `< 5`; the share is `5/101`, not `1/20`. -/
theorem selection_probability_value :
    (∀ v : Int, v ∈ selectionOutcomes ↔ 0 ≤ v ∧ v ≤ 100) ∧
    selectionOutcomes.length = 101 ∧ selectedOutcomes = [0, 1, 2, 3, 4] ∧
    selectionProbability = 5 / 101 ∧ selectionProbability ≠ 1 / 20 := by
  have e : selectionProbability = 5 / 101 := by
    unfold selectionProbability
    rw [length_selectionOutcomes, length_selectedOutcomes]
    norm_num
  refine ⟨fun v => ?_, length_selectionOutcomes, by decide, e, ?_⟩
  · unfold selectionOutcomes
    rw [mem_loopIndices]
    omega
  · rw [e]
    norm_num

/-! ## C10: the colour mapping -/

theorem truncToInt_intCast (n : Int) : truncToInt (n : ℚ) = n := by
  unfold truncToInt
  rw [Rat.num_intCast, Rat.den_intCast]
  exact Int.tdiv_one n

theorem toUChar_intCast (n : Int) : toUChar (n : ℚ) = (n % 256).toNat := by
  unfold toUChar
  rw [truncToInt_intCast]

theorem drawCell_pixel (s : Sim) (x y : Int) (scr : Screen) (i j : Int) :
    drawCell s x y scr i j =
      if i = x ∧ j = y ∧ true = true then some (cellColor (s.gridA x y) (s.gridB x y))
      else scr i j := by
  unfold drawCell DrawRectangle SCALE
  by_cases h : i = x ∧ j = y
  · rw [if_pos (by omega), if_pos ⟨h.1, h.2, rfl⟩]
  · rw [if_neg (by omega), if_neg (fun h3 => h ⟨h3.1, h3.2.1⟩)]

theorem semana2_drawCell_pixel (s : Sim) (x y : Int) (scr : Screen) (i j : Int) :
    semana2.drawCell s x y scr i j =
      if i = x ∧ j = y ∧ true = true then some (semana2.cellColor (s.gridA x y) (s.gridB x y))
      else scr i j := by
  unfold semana2.drawCell DrawRectangle SCALE
  by_cases h : i = x ∧ j = y
  · rw [if_pos (by omega), if_pos ⟨h.1, h.2, rfl⟩]
  · rw [if_neg (by omega), if_neg (fun h3 => h ⟨h3.1, h3.2.1⟩)]

theorem DrawSimulation_eq (s : Sim) (scr : Screen) :
    DrawSimulation s scr = forLoop 0 WIDTH (fun x scr =>
      forLoop 0 HEIGHT (fun y scr => drawCell s x y scr) scr) scr := rfl

theorem semana2_DrawSimulation_eq (s : Sim) (scr : Screen) :
    semana2.DrawSimulation s scr = forLoop 0 WIDTH (fun x scr =>
      forLoop 0 HEIGHT (fun y scr => semana2.drawCell s x y scr) scr) scr := rfl

/-- The function `DrawSimulation` (`main.c`, `semana3.c`) paints every cell of
the grid with `cellColor` of its two values. -/
theorem DrawSimulation_pixel (s : Sim) (scr : Screen) (i j : Int) :
    DrawSimulation s scr i j =
      if 0 ≤ i ∧ i < WIDTH ∧ 0 ≤ j ∧ j < HEIGHT then
        some (cellColor (s.gridA i j) (s.gridB i j))
      else scr i j := by
  have h := forLoop2_writes (fun scr : Screen => scr) (fun _ => True) (fun _ _ => true)
    (fun x y => some (cellColor (s.gridA x y) (s.gridB x y)))
    0 WIDTH 0 HEIGHT (by unfold WIDTH; omega) (by unfold HEIGHT; omega) (drawCell s)
    (fun _ _ _ _ _ _ _ h => h)
    (fun x y t _ _ _ _ _ i j => drawCell_pixel s x y t i j) scr trivial
  simp only [and_true] at h
  rw [DrawSimulation_eq]
  exact h.2 i j

/-- The function `DrawSimulation` (`semana2.c`) paints every cell of the grid
with `semana2.cellColor` of its two values. -/
theorem semana2_DrawSimulation_pixel (s : Sim) (scr : Screen) (i j : Int) :
    semana2.DrawSimulation s scr i j =
      if 0 ≤ i ∧ i < WIDTH ∧ 0 ≤ j ∧ j < HEIGHT then
        some (semana2.cellColor (s.gridA i j) (s.gridB i j))
      else scr i j := by
  have h := forLoop2_writes (fun scr : Screen => scr) (fun _ => True) (fun _ _ => true)
    (fun x y => some (semana2.cellColor (s.gridA x y) (s.gridB x y)))
    0 WIDTH 0 HEIGHT (by unfold WIDTH; omega) (by unfold HEIGHT; omega) (semana2.drawCell s)
    (fun _ _ _ _ _ _ _ h => h)
    (fun x y t _ _ _ _ _ i j => semana2_drawCell_pixel s x y t i j) scr trivial
  simp only [and_true] at h
  rw [semana2_DrawSimulation_eq]
  exact h.2 i j

theorem cellColor_one_one : cellColor 1 1 = { r := 255, g := 255, b := 127, a := 255 } := by
  have e1 : (1 : ℚ) * 255 = ((255 : Int) : ℚ) := by norm_num
  have e2 : (1 : ℚ) * 255 + 1 * 255 = ((510 : Int) : ℚ) := by norm_num
  unfold cellColor
  rw [e2, e1, toUChar_intCast, toUChar_intCast]
  decide

theorem semana2_cellColor_one_one :
    semana2.cellColor 1 1 = { r := 255, g := 255, b := 255, a := 255 } := by
  have e1 : (1 : ℚ) * 255 = ((255 : Int) : ℚ) := by norm_num
  have e2 : ((1 : ℚ) * 255 + 1 * 255) / 2 = ((255 : Int) : ℚ) := by norm_num
  unfold semana2.cellColor
  rw [e2, e1, toUChar_intCast]
  decide

theorem cellColor_blue_le (valueA valueB : ℚ) : (cellColor valueA valueB).b ≤ 127 := by
  unfold cellColor toUChar
  dsimp only
  omega

/-- C10, the code at odds with the claim: for a cell with A = 1, B = 1,
`DrawSimulation` of `main.c` and `semana3.c` draws blue = 127, where the claim
(and `DrawSimulation` of `semana2.c`) gives blue = 255; red, green and alpha
are 255 in both. Whatever byte the cast of the sum yields, the blue channel
of `main.c` and `semana3.c` is at most 127. -/
theorem blue_channel_at_full_concentration :
    DrawSimulation onesSim blankScreen 0 0 = some { r := 255, g := 255, b := 127, a := 255 } ∧
    semana2.DrawSimulation onesSim blankScreen 0 0 =
      some { r := 255, g := 255, b := 255, a := 255 } ∧
    ∀ valueA valueB : ℚ, (cellColor valueA valueB).b ≤ 127 := by
  rw [DrawSimulation_pixel, semana2_DrawSimulation_pixel, if_pos (by decide)]
  have eA : onesSim.gridA 0 0 = 1 := rfl
  have eB : onesSim.gridB 0 0 = 1 := rfl
  rw [eA, eB, cellColor_one_one, semana2_cellColor_one_one]
  exact ⟨rfl, rfl, cellColor_blue_le⟩

/-! ## C11: out-of-range concentrations wrap -/

theorem truncToInt_of_nonneg (q : ℚ) (h : 0 ≤ q) : truncToInt q = ⌊q⌋ := by
  unfold truncToInt
  rw [Int.tdiv_eq_ediv (Rat.num_nonneg.2 h) (Int.natCast_nonneg _), Rat.floor_def]

theorem truncToInt_neg (q : ℚ) : truncToInt (-q) = -truncToInt q := by
  unfold truncToInt
  rw [Rat.neg_num, Rat.neg_den, Int.neg_tdiv]

theorem truncToInt_of_nonpos (q : ℚ) (h : q ≤ 0) : truncToInt q = ⌈q⌉ := by
  have e : q = -(-q) := (neg_neg q).symm
  rw [e, truncToInt_neg, truncToInt_of_nonneg (-q) (by linarith), Int.ceil_neg]

/-- The byte the cast yields is the truncated value when that is in `0 .. 255`. -/
theorem toUChar_inRange (q : ℚ) (h0 : 0 ≤ q) (h1 : q < 256) : (toUChar q : Int) = ⌊q⌋ := by
  have lo : 0 ≤ ⌊q⌋ := Int.floor_nonneg.2 h0
  have hi : ⌊q⌋ < 256 := Int.floor_lt.2 (by exact_mod_cast h1)
  unfold toUChar
  rw [truncToInt_of_nonneg q h0]
  omega

/-- The byte the cast yields wraps around for a value in `256 .. 511`. -/
theorem toUChar_wrap_above (q : ℚ) (h0 : 256 ≤ q) (h1 : q < 512) :
    (toUChar q : Int) = ⌊q⌋ - 256 := by
  have lo : 256 ≤ ⌊q⌋ := Int.le_floor.2 (by exact_mod_cast h0)
  have hi : ⌊q⌋ < 512 := Int.floor_lt.2 (by exact_mod_cast h1)
  unfold toUChar
  rw [truncToInt_of_nonneg q (by linarith)]
  omega

/-- The byte the cast yields wraps around for a value in `-255 .. -1`. -/
theorem toUChar_wrap_below (q : ℚ) (h0 : -256 < q) (h1 : q ≤ -1) :
    (toUChar q : Int) = ⌈q⌉ + 256 := by
  have lo : -256 < ⌈q⌉ := Int.lt_ceil.2 (by exact_mod_cast h0)
  have hi : ⌈q⌉ ≤ -1 := Int.ceil_le.2 (by exact_mod_cast h1)
  unfold toUChar
  rw [truncToInt_of_nonpos q (by linarith)]
  omega

theorem cellColor_r (valueA valueB : ℚ) : (cellColor valueA valueB).r = toUChar (valueA * 255) :=
  rfl

theorem cellColor_g (valueA valueB : ℚ) : (cellColor valueA valueB).g = toUChar (valueB * 255) :=
  rfl

theorem semana2_cellColor_r (valueA valueB : ℚ) :
    (semana2.cellColor valueA valueB).r = toUChar (valueA * 255) := rfl

theorem semana2_cellColor_g (valueA valueB : ℚ) :
    (semana2.cellColor valueA valueB).g = toUChar (valueB * 255) := rfl

theorem toUChar_over : toUChar ((3 / 2 : ℚ) * 255) = 126 := by
  unfold toUChar truncToInt
  norm_num
  decide

theorem toUChar_under : toUChar ((-(1 / 2) : ℚ) * 255) = 129 := by
  unfold toUChar truncToInt
  norm_num
  decide

/-- The byte the cast yields is 0 for a value strictly between -1 and 1. -/
theorem toUChar_near_zero (q : ℚ) (h0 : -1 < q) (h1 : q < 1) : toUChar q = 0 := by
  rcases le_total 0 q with hq | hq
  · have e := toUChar_inRange q hq (by linarith)
    have hi : ⌊q⌋ < 1 := Int.floor_lt.2 (by exact_mod_cast h1)
    have lo : 0 ≤ ⌊q⌋ := Int.floor_nonneg.2 hq
    omega
  · have lo : -1 < ⌈q⌉ := Int.lt_ceil.2 (by exact_mod_cast h0)
    have hi : ⌈q⌉ ≤ 0 := Int.ceil_le.2 (by exact_mod_cast hq)
    unfold toUChar
    rw [truncToInt_of_nonpos q hq]
    omega

/-- C11, as amended: the colour mapping does not clamp, it wraps. With the
narrowing to a byte taken as truncation reduced modulo 256, the red channel
(in `main.c`, `semana3.c` and `semana2.c` alike) is the truncated `A*255` itself
while that is in `0 .. 255`, is the truncated `A*255` minus 256 for
`256 ≤ A*255 < 511` (so below 255 there), is the truncated `A*255` plus 256
for `-256 < A*255 ≤ -1` (so above 0 there), and is 0 for `-1 < A*255 < 1`;
likewise the green channel with B. -/
theorem out_of_range_wraps (valueA valueB : ℚ) :
    ((0 ≤ valueA * 255 ∧ valueA * 255 < 256 →
        ((cellColor valueA valueB).r : Int) = ⌊valueA * 255⌋) ∧
      (256 ≤ valueA * 255 ∧ valueA * 255 < 511 →
        ((cellColor valueA valueB).r : Int) = ⌊valueA * 255⌋ - 256 ∧
        (cellColor valueA valueB).r < 255) ∧
      (-256 < valueA * 255 ∧ valueA * 255 ≤ -1 →
        ((cellColor valueA valueB).r : Int) = ⌈valueA * 255⌉ + 256 ∧
        0 < (cellColor valueA valueB).r) ∧
      (-1 < valueA * 255 ∧ valueA * 255 < 1 → (cellColor valueA valueB).r = 0)) ∧
    ((0 ≤ valueB * 255 ∧ valueB * 255 < 256 →
        ((cellColor valueA valueB).g : Int) = ⌊valueB * 255⌋) ∧
      (256 ≤ valueB * 255 ∧ valueB * 255 < 511 →
        ((cellColor valueA valueB).g : Int) = ⌊valueB * 255⌋ - 256 ∧
        (cellColor valueA valueB).g < 255) ∧
      (-256 < valueB * 255 ∧ valueB * 255 ≤ -1 →
        ((cellColor valueA valueB).g : Int) = ⌈valueB * 255⌉ + 256 ∧
        0 < (cellColor valueA valueB).g) ∧
      (-1 < valueB * 255 ∧ valueB * 255 < 1 → (cellColor valueA valueB).g = 0)) ∧
    (semana2.cellColor valueA valueB).r = (cellColor valueA valueB).r ∧
    (semana2.cellColor valueA valueB).g = (cellColor valueA valueB).g := by
  have above : ∀ q : ℚ, 256 ≤ q ∧ q < 511 →
      (toUChar q : Int) = ⌊q⌋ - 256 ∧ toUChar q < 255 := by
    intro q h
    have e := toUChar_wrap_above q h.1 (by linarith [h.2])
    have hi : ⌊q⌋ < 511 := Int.floor_lt.2 (by exact_mod_cast h.2)
    refine ⟨e, ?_⟩
    omega
  have below : ∀ q : ℚ, -256 < q ∧ q ≤ -1 →
      (toUChar q : Int) = ⌈q⌉ + 256 ∧ 0 < toUChar q := by
    intro q h
    have e := toUChar_wrap_below q h.1 h.2
    have lo : -256 < ⌈q⌉ := Int.lt_ceil.2 (by exact_mod_cast h.1)
    refine ⟨e, ?_⟩
    omega
  rw [semana2_cellColor_r, semana2_cellColor_g, cellColor_r, cellColor_g]
  exact ⟨⟨fun h => toUChar_inRange _ h.1 h.2, above _, below _,
      fun h => toUChar_near_zero _ h.1 h.2⟩,
    ⟨fun h => toUChar_inRange _ h.1 h.2, above _, below _,
      fun h => toUChar_near_zero _ h.1 h.2⟩, rfl, rfl⟩

/-- C11, witness of the amended claim: A = 1.5 gives red 126 and B = -0.5 gives green 129. -/
theorem out_of_range_wraps_witness :
    (256 ≤ (3 / 2 : ℚ) * 255 ∧ (3 / 2 : ℚ) * 255 < 511) ∧
    (-256 < (-(1 / 2) : ℚ) * 255 ∧ (-(1 / 2) : ℚ) * 255 ≤ -1) ∧
    ((cellColor (3 / 2) (-(1 / 2))).r : Int) = ⌊(3 / 2 : ℚ) * 255⌋ - 256 ∧
    ((cellColor (3 / 2) (-(1 / 2))).g : Int) = ⌈(-(1 / 2) : ℚ) * 255⌉ + 256 ∧
    (cellColor (3 / 2) (-(1 / 2))).r = 126 ∧ (cellColor (3 / 2) (-(1 / 2))).g = 129 := by
  have h := out_of_range_wraps (3 / 2) (-(1 / 2))
  have hA : 256 ≤ (3 / 2 : ℚ) * 255 ∧ (3 / 2 : ℚ) * 255 < 511 := by norm_num
  have hB : -256 < (-(1 / 2) : ℚ) * 255 ∧ (-(1 / 2) : ℚ) * 255 ≤ -1 := by norm_num
  refine ⟨hA, hB, (h.1.2.1 hA).1, (h.2.1.2.2.1 hB).1, ?_, ?_⟩
  · rw [cellColor_r, toUChar_over]
  · rw [cellColor_g, toUChar_under]

theorem cellColor_over :
    cellColor (3 / 2) (-(1 / 2)) = { r := 126, g := 129, b := 127, a := 255 } := by
  have e : (3 / 2 : ℚ) * 255 + -(1 / 2) * 255 = ((255 : Int) : ℚ) := by norm_num
  unfold cellColor
  rw [e, toUChar_over, toUChar_under, toUChar_intCast]
  decide

theorem semana2_cellColor_over :
    semana2.cellColor (3 / 2) (-(1 / 2)) = { r := 126, g := 129, b := 127, a := 255 } := by
  have e : ((3 / 2 : ℚ) * 255 + -(1 / 2) * 255) / 2 = 255 / 2 := by norm_num
  have t : toUChar (255 / 2 : ℚ) = 127 := by
    unfold toUChar truncToInt
    norm_num
    decide
  unfold semana2.cellColor
  rw [e, toUChar_over, toUChar_under, t]

/-- C11, counterexample: for a cell with A = 1.5 (above 1) and B = -0.5
(below 0), `DrawSimulation` draws red 126, not 255, and green 129, not 0; so
does `DrawSimulation` of `semana2.c`. -/
theorem clamp_counterexample :
    DrawSimulation overSim blankScreen 0 0 =
      some { r := 126, g := 129, b := 127, a := 255 } ∧
    semana2.DrawSimulation overSim blankScreen 0 0 =
      some { r := 126, g := 129, b := 127, a := 255 } := by
  have eA : overSim.gridA 0 0 = 3 / 2 := rfl
  have eB : overSim.gridB 0 0 = -(1 / 2) := rfl
  rw [DrawSimulation_pixel, semana2_DrawSimulation_pixel, if_pos (by decide), eA, eB,
    cellColor_over, semana2_cellColor_over]
  exact ⟨rfl, rfl⟩

/-! ## C14: the blue channel of `main.c` and `semana3.c` -/

theorem cellColor_eq_with (valueA valueB : ℚ) :
    cellColor valueA valueB = cellColorWith toUChar valueA valueB := rfl

theorem toUChar_le (q : ℚ) : toUChar q ≤ 255 := by
  unfold toUChar
  omega

theorem cellColorWith_blue_le (narrow : ℚ → Nat) (hbyte : ∀ q, narrow q ≤ 255)
    (valueA valueB : ℚ) : (cellColorWith narrow valueA valueB).b ≤ 127 := by
  have h := hbyte (valueA * 255 + valueB * 255)
  unfold cellColorWith
  dsimp only
  omega

/-- C14: in `main.c` and `semana3.c` the byte cast applies to `A*255 + B*255`
before the division by 2, so whatever byte `0 .. 255` the cast yields the blue
channel is at most 127, for every A and B; this holds for the colour expression
with the cast left open, for `cellColor` and for every pixel `DrawSimulation`
draws. `DrawSimulation` of `semana2.c` draws blue = 255 for A = 1, B = 1, so
the variants do not share one colour mapping. -/
theorem blue_at_most_127 (narrow : ℚ → Nat) (hbyte : ∀ q, narrow q ≤ 255)
    (valueA valueB : ℚ) :
    (cellColorWith narrow valueA valueB).b ≤ 127 ∧
    (cellColor valueA valueB).b ≤ 127 ∧
    (∀ (s : Sim) (scr : Screen) (x y : Int), 0 ≤ x ∧ x < WIDTH ∧ 0 ≤ y ∧ y < HEIGHT →
      ∃ c, DrawSimulation s scr x y = some c ∧ c.b ≤ 127) ∧
    semana2.DrawSimulation onesSim blankScreen 0 0 =
      some { r := 255, g := 255, b := 255, a := 255 } ∧
    DrawSimulation onesSim blankScreen 0 0 ≠ semana2.DrawSimulation onesSim blankScreen 0 0 := by
  have eA : onesSim.gridA 0 0 = 1 := rfl
  have eB : onesSim.gridB 0 0 = 1 := rfl
  refine ⟨cellColorWith_blue_le narrow hbyte valueA valueB, cellColor_blue_le valueA valueB,
    fun s scr x y hg => ?_, ?_, ?_⟩
  · rw [DrawSimulation_pixel, if_pos hg]
    exact ⟨_, rfl, cellColor_blue_le _ _⟩
  · rw [semana2_DrawSimulation_pixel, if_pos (by decide), eA, eB, semana2_cellColor_one_one]
  · rw [DrawSimulation_pixel, semana2_DrawSimulation_pixel, if_pos (by decide), eA, eB,
      cellColor_one_one, semana2_cellColor_one_one]
    decide

/-- C14, witness: the cast `toUChar` yields a byte, and A = 1, B = 1 gives
blue 127 in `main.c` and `semana3.c`. -/
theorem blue_at_most_127_witness :
    (∀ q, toUChar q ≤ 255) ∧
    (cellColorWith toUChar 1 1).b ≤ 127 ∧ (cellColor 1 1).b = 127 ∧
    semana2.DrawSimulation onesSim blankScreen 0 0 =
      some { r := 255, g := 255, b := 255, a := 255 } := by
  have h := blue_at_most_127 toUChar toUChar_le 1 1
  refine ⟨toUChar_le, h.1, ?_, h.2.2.2.1⟩
  rw [cellColor_one_one]

/-! ## The stepper with parameters, cell by cell -/

theorem UpdateReactionDiffusion_eq_with (s : Sim) :
    UpdateReactionDiffusion s = UpdateReactionDiffusionWith F K s := rfl

theorem stagedA_eq_with (gA gB : Grid) (x y : Int) :
    stagedA gA gB x y = stagedAWith F gA gB x y := rfl

theorem stagedB_eq_with (gA gB : Grid) (x y : Int) :
    stagedB gA gB x y = stagedBWith F K gA gB x y := rfl

theorem stageInteriorWith_eq (f k : ℚ) (s : Sim) :
    stageInteriorWith f k s = forLoop 1 (WIDTH - 1) (fun x s =>
      forLoop 1 (HEIGHT - 1) (fun y s => updateCellWith f k x y s) s) s := rfl

theorem stageInteriorWith_spec (f k : ℚ) (s : Sim) :
    (stageInteriorWith f k s).gridA = s.gridA ∧ (stageInteriorWith f k s).gridB = s.gridB ∧
    (∀ i j, (stageInteriorWith f k s).nextA i j =
      if 1 ≤ i ∧ i < WIDTH - 1 ∧ 1 ≤ j ∧ j < HEIGHT - 1 then stagedAWith f s.gridA s.gridB i j
      else s.nextA i j) ∧
    (∀ i j, (stageInteriorWith f k s).nextB i j =
      if 1 ≤ i ∧ i < WIDTH - 1 ∧ 1 ≤ j ∧ j < HEIGHT - 1 then stagedBWith f k s.gridA s.gridB i j
      else s.nextB i j) := by
  have hA := forLoop2_writes Sim.nextA (fun t => t.gridA = s.gridA ∧ t.gridB = s.gridB)
    (fun _ _ => true) (stagedAWith f s.gridA s.gridB) 1 (WIDTH - 1) 1 (HEIGHT - 1)
    (by unfold WIDTH; omega) (by unfold HEIGHT; omega) (updateCellWith f k)
    (fun x y t _ _ _ _ h => h)
    (fun x y t _ _ _ _ h i j => by
      simp only [updateCellWith, Grid.set, stagedAWith, h.1, h.2, and_true]) s ⟨rfl, rfl⟩
  have hB := forLoop2_writes Sim.nextB (fun t => t.gridA = s.gridA ∧ t.gridB = s.gridB)
    (fun _ _ => true) (stagedBWith f k s.gridA s.gridB) 1 (WIDTH - 1) 1 (HEIGHT - 1)
    (by unfold WIDTH; omega) (by unfold HEIGHT; omega) (updateCellWith f k)
    (fun x y t _ _ _ _ h => h)
    (fun x y t _ _ _ _ h i j => by
      simp only [updateCellWith, Grid.set, stagedBWith, h.1, h.2, and_true]) s ⟨rfl, rfl⟩
  simp only [and_true] at hA hB
  rw [stageInteriorWith_eq]
  exact ⟨hA.1.1, hA.1.2, hA.2, hB.2⟩

theorem UpdateReactionDiffusionWith_eq (f k : ℚ) (s : Sim) :
    UpdateReactionDiffusionWith f k s = commit (stageInteriorWith f k s) := rfl

/-- What one step with rates `f`, `k` leaves in a cell of the grid: the staged
value in an interior cell, the buffer's old value in a border cell; the
buffers' border is not written. -/
theorem UpdateReactionDiffusionWith_cells (f k : ℚ) (s : Sim) (x y : Int) :
    (interior x y →
      (UpdateReactionDiffusionWith f k s).gridA x y = stagedAWith f s.gridA s.gridB x y ∧
      (UpdateReactionDiffusionWith f k s).gridB x y = stagedBWith f k s.gridA s.gridB x y) ∧
    (border x y →
      ((UpdateReactionDiffusionWith f k s).gridA x y = s.nextA x y ∧
        (UpdateReactionDiffusionWith f k s).gridB x y = s.nextB x y) ∧
      ((UpdateReactionDiffusionWith f k s).nextA x y = s.nextA x y ∧
        (UpdateReactionDiffusionWith f k s).nextB x y = s.nextB x y)) := by
  obtain ⟨-, -, snA, snB⟩ := stageInteriorWith_spec f k s
  obtain ⟨cnA, cnB, cA, cB⟩ := commit_spec (stageInteriorWith f k s)
  rw [UpdateReactionDiffusionWith_eq]
  constructor
  · intro hi
    have hg : 0 ≤ x ∧ x < WIDTH ∧ 0 ≤ y ∧ y < HEIGHT := by
      unfold interior WIDTH HEIGHT at *
      omega
    have hi' : 1 ≤ x ∧ x < WIDTH - 1 ∧ 1 ≤ y ∧ y < HEIGHT - 1 := hi
    rw [cA, cB, if_pos hg, if_pos hg, snA, snB, if_pos hi', if_pos hi']
    exact ⟨rfl, rfl⟩
  · intro hb
    have hni : ¬ (1 ≤ x ∧ x < WIDTH - 1 ∧ 1 ≤ y ∧ y < HEIGHT - 1) := border_not_interior x y hb
    have hg : 0 ≤ x ∧ x < WIDTH ∧ 0 ≤ y ∧ y < HEIGHT := hb.1
    rw [cA, cB, if_pos hg, if_pos hg, cnA, cnB, snA, snB, if_neg hni, if_neg hni]
    exact ⟨⟨rfl, rfl⟩, rfl, rfl⟩

/-! ## C12: the stepper stays in the region `A ≥ 0`, `B ≥ 0`, `A + B ≤ 2` -/

/-- The update rule maps the region into itself: if a cell and its four
neighbours lie in the region and `0 ≤ f ≤ 1`, `0 ≤ k ≤ 1`, so do its new values. -/
theorem staged_inRegion (f k : ℚ) (hf : 0 ≤ f ∧ f ≤ 1) (hk : 0 ≤ k ∧ k ≤ 1) (gA gB : Grid)
    (x y : Int) (hc : inRegion (gA x y) (gB x y))
    (hl : inRegion (gA (x - 1) y) (gB (x - 1) y)) (hr : inRegion (gA (x + 1) y) (gB (x + 1) y))
    (hd : inRegion (gA x (y - 1)) (gB x (y - 1))) (hu : inRegion (gA x (y + 1)) (gB x (y + 1))) :
    inRegion (stagedAWith f gA gB x y) (stagedBWith f k gA gB x y) := by
  unfold inRegion at *
  unfold stagedAWith stagedBWith
  obtain ⟨ha, hb, hab⟩ := hc
  obtain ⟨hla, hlb, hlab⟩ := hl
  obtain ⟨hra, hrb, hrab⟩ := hr
  obtain ⟨hda, hdb, hdab⟩ := hd
  obtain ⟨hua, hub, huab⟩ := hu
  obtain ⟨hf0, hf1⟩ := hf
  obtain ⟨hk0, hk1⟩ := hk
  generalize gA x y = a at *
  generalize gB x y = b at *
  generalize gA (x - 1) y = al at *
  generalize gA (x + 1) y = ar at *
  generalize gA x (y - 1) = ad at *
  generalize gA x (y + 1) = au at *
  generalize gB (x - 1) y = bl at *
  generalize gB (x + 1) y = br at *
  generalize gB x (y - 1) = bd at *
  generalize gB x (y + 1) = bu at *
  have hb2 : b ≤ 2 := by linarith
  have hbb : b * b ≤ 4 := by nlinarith
  have hbb0 : 0 ≤ b * b := mul_nonneg hb hb
  have p1 : 0 ≤ a * (16 - b * b - f) := mul_nonneg ha (by linarith)
  have p2 : 0 ≤ b * (16 - (f + k)) := mul_nonneg hb (by linarith)
  have p3 : 0 ≤ a * b * b := mul_nonneg (mul_nonneg ha hb) hb
  have p4 : 0 ≤ (2 - (a + b)) * (16 - f) := mul_nonneg (by linarith) (by linarith)
  have p5 : 0 ≤ k * b := mul_nonneg hk0 hb
  refine ⟨?_, ?_, ?_⟩
  · nlinarith
  · nlinarith
  · nlinarith

theorem inGrid_cases (x y : Int) (hg : inGrid x y) : border x y ∨ interior x y := by
  unfold border interior
  unfold inGrid at *
  omega

theorem interior_neighbours (x y : Int) (hi : interior x y) :
    inGrid x y ∧ inGrid (x - 1) y ∧ inGrid (x + 1) y ∧ inGrid x (y - 1) ∧ inGrid x (y + 1) := by
  unfold interior at hi
  unfold inGrid WIDTH HEIGHT at *
  omega

/-- One step with rates in `[0, 1]` keeps a bounded state bounded. -/
theorem Bounded_step (f k : ℚ) (hf : 0 ≤ f ∧ f ≤ 1) (hk : 0 ≤ k ∧ k ≤ 1) (s : Sim)
    (hs : Bounded s) : Bounded (UpdateReactionDiffusionWith f k s) := by
  obtain ⟨hgrid, hnext⟩ := hs
  constructor
  · intro x y hg
    obtain ⟨hint, hbor⟩ := UpdateReactionDiffusionWith_cells f k s x y
    rcases inGrid_cases x y hg with hb | hi
    · rw [(hbor hb).1.1, (hbor hb).1.2]
      exact hnext x y hb
    · rw [(hint hi).1, (hint hi).2]
      obtain ⟨n0, n1, n2, n3, n4⟩ := interior_neighbours x y hi
      exact staged_inRegion f k hf hk s.gridA s.gridB x y (hgrid _ _ n0) (hgrid _ _ n1)
        (hgrid _ _ n2) (hgrid _ _ n3) (hgrid _ _ n4)
  · intro x y hb
    obtain ⟨-, hbor⟩ := UpdateReactionDiffusionWith_cells f k s x y
    rw [(hbor hb).2.1, (hbor hb).2.2]
    exact hnext x y hb

theorem Bounded_iterate (f k : ℚ) (hf : 0 ≤ f ∧ f ≤ 1) (hk : 0 ≤ k ∧ k ≤ 1) (s : Sim)
    (hs : Bounded s) (n : Nat) : Bounded (Nat.iterate (UpdateReactionDiffusionWith f k) n s) := by
  induction n with
  | zero => exact hs
  | succ n ih =>
    rw [Function.iterate_succ_apply']
    exact Bounded_step f k hf hk _ ih

theorem UpdateReactionDiffusion_fun_eq_with :
    UpdateReactionDiffusion = UpdateReactionDiffusionWith F K :=
  funext UpdateReactionDiffusion_eq_with

theorem F_K_in_unit : (0 ≤ F ∧ F ≤ 1) ∧ (0 ≤ K ∧ K ≤ 1) := by
  unfold F K
  norm_num

/-- The patch-seeded state with zeroed buffers is bounded: A = 1 and B is 0 or 1
on the grid, and the buffers are 0. -/
theorem InitReactionDiffusion_bounded (r : Rng) : Bounded (InitReactionDiffusion zeroSim r).1 := by
  obtain ⟨nA, nB, hA, hB⟩ := InitReactionDiffusion_spec zeroSim r
  constructor
  · intro x y hg
    have hg' : 0 ≤ x ∧ x < WIDTH ∧ 0 ≤ y ∧ y < HEIGHT := hg
    unfold inRegion
    rw [hA x y hg']
    by_cases hp : ∃ m : Nat, m < 100 ∧ inPatch (patchOrigin r m) x y
    · rw [(hB x y hg').1 hp]
      norm_num
    · rw [(hB x y hg').2 hp]
      norm_num
  · intro x y _
    rw [nA, nB]
    unfold inRegion zeroSim
    norm_num

/-- C12: with the step taken with feed rate `f` and kill rate `k`, `dt = 0.05`,
for every `0 ≤ f ≤ 1` and `0 ≤ k ≤ 1` (so for `f = k = 0` and for the rates
`F = 0.03`, `K = 0.06` of the sources, whose `UpdateReactionDiffusion` is the step
with `f = F`, `k = K`): if every cell of the live fields and every border cell
of the next-step buffers has `A ≥ 0`, `B ≥ 0`, `A + B ≤ 2`, then after any number
`n` of steps every cell of the grid still has `A ≥ 0`, `B ≥ 0`, `A + B ≤ 2`. -/
theorem stepper_stays_bounded (f k : ℚ) (hf : 0 ≤ f ∧ f ≤ 1) (hk : 0 ≤ k ∧ k ≤ 1) (s : Sim)
    (hgrid : ∀ x y, inGrid x y →
      0 ≤ s.gridA x y ∧ 0 ≤ s.gridB x y ∧ s.gridA x y + s.gridB x y ≤ 2)
    (hnext : ∀ x y, border x y →
      0 ≤ s.nextA x y ∧ 0 ≤ s.nextB x y ∧ s.nextA x y + s.nextB x y ≤ 2)
    (n : Nat) (x y : Int) (hg : inGrid x y) :
    (0 ≤ (Nat.iterate (UpdateReactionDiffusionWith f k) n s).gridA x y ∧
      0 ≤ (Nat.iterate (UpdateReactionDiffusionWith f k) n s).gridB x y ∧
      (Nat.iterate (UpdateReactionDiffusionWith f k) n s).gridA x y +
        (Nat.iterate (UpdateReactionDiffusionWith f k) n s).gridB x y ≤ 2) ∧
    (0 ≤ (Nat.iterate UpdateReactionDiffusion n s).gridA x y ∧
      0 ≤ (Nat.iterate UpdateReactionDiffusion n s).gridB x y ∧
      (Nat.iterate UpdateReactionDiffusion n s).gridA x y +
        (Nat.iterate UpdateReactionDiffusion n s).gridB x y ≤ 2) ∧
    UpdateReactionDiffusion = UpdateReactionDiffusionWith F K := by
  have hs : Bounded s := ⟨hgrid, hnext⟩
  refine ⟨(Bounded_iterate f k hf hk s hs n).1 x y hg, ?_, UpdateReactionDiffusion_fun_eq_with⟩
  rw [UpdateReactionDiffusion_fun_eq_with]
  exact (Bounded_iterate F K F_K_in_unit.1 F_K_in_unit.2 s hs n).1 x y hg

/-- C12, witness: the patch-seeded state with zeroed buffers, 100 steps, cell
`(300, 300)`, with `f = k = 0` and with `f = 0.03`, `k = 0.06`. -/
theorem stepper_stays_bounded_witness :
    (0 ≤ (Nat.iterate (UpdateReactionDiffusionWith 0 0) 100
        (InitReactionDiffusion zeroSim lowRng).1).gridA 300 300 ∧
      0 ≤ (Nat.iterate (UpdateReactionDiffusionWith 0 0) 100
        (InitReactionDiffusion zeroSim lowRng).1).gridB 300 300 ∧
      (Nat.iterate (UpdateReactionDiffusionWith 0 0) 100
          (InitReactionDiffusion zeroSim lowRng).1).gridA 300 300 +
        (Nat.iterate (UpdateReactionDiffusionWith 0 0) 100
          (InitReactionDiffusion zeroSim lowRng).1).gridB 300 300 ≤ 2) ∧
    (0 ≤ (Nat.iterate UpdateReactionDiffusion 100
        (InitReactionDiffusion zeroSim lowRng).1).gridA 300 300 ∧
      0 ≤ (Nat.iterate UpdateReactionDiffusion 100
        (InitReactionDiffusion zeroSim lowRng).1).gridB 300 300 ∧
      (Nat.iterate UpdateReactionDiffusion 100
          (InitReactionDiffusion zeroSim lowRng).1).gridA 300 300 +
        (Nat.iterate UpdateReactionDiffusion 100
          (InitReactionDiffusion zeroSim lowRng).1).gridB 300 300 ≤ 2) :=
  have hb := InitReactionDiffusion_bounded lowRng
  ⟨(stepper_stays_bounded 0 0 (by norm_num) (by norm_num)
      (InitReactionDiffusion zeroSim lowRng).1 hb.1 hb.2 100 300 300 (by decide)).1,
    (stepper_stays_bounded (3 / 100) (6 / 100) (by norm_num) (by norm_num)
      (InitReactionDiffusion zeroSim lowRng).1 hb.1 hb.2 100 300 300 (by decide)).2.1⟩

/-! ## C13: the uniform state is steady -/

/-- C13: for every interior cell whose own values and whose four neighbours'
values are all A = 1, B = 0 before the step, the step leaves the cell at
exactly A = 1, B = 0, for any feed rate `f` and kill rate `k`, and so does
`UpdateReactionDiffusion` of the sources. -/
theorem uniform_state_is_steady (f k : ℚ) (s : Sim) (x y : Int) (hi : interior x y)
    (hA : s.gridA x y = 1 ∧ s.gridA (x - 1) y = 1 ∧ s.gridA (x + 1) y = 1 ∧
      s.gridA x (y - 1) = 1 ∧ s.gridA x (y + 1) = 1)
    (hB : s.gridB x y = 0 ∧ s.gridB (x - 1) y = 0 ∧ s.gridB (x + 1) y = 0 ∧
      s.gridB x (y - 1) = 0 ∧ s.gridB x (y + 1) = 0) :
    ((UpdateReactionDiffusionWith f k s).gridA x y = 1 ∧
      (UpdateReactionDiffusionWith f k s).gridB x y = 0) ∧
    ((UpdateReactionDiffusion s).gridA x y = 1 ∧ (UpdateReactionDiffusion s).gridB x y = 0) := by
  have key : ∀ f k : ℚ, stagedAWith f s.gridA s.gridB x y = 1 ∧
      stagedBWith f k s.gridA s.gridB x y = 0 := by
    intro f k
    unfold stagedAWith stagedBWith
    rw [hA.1, hA.2.1, hA.2.2.1, hA.2.2.2.1, hA.2.2.2.2, hB.1, hB.2.1, hB.2.2.1, hB.2.2.2.1,
      hB.2.2.2.2]
    constructor <;> ring
  have h1 := (UpdateReactionDiffusionWith_cells f k s x y).1 hi
  have h2 := UpdateReactionDiffusion_interior s x y hi.1 hi.2.1 hi.2.2.1 hi.2.2.2
  rw [h1.1, h1.2, h2.1, h2.2, stagedA_eq_with, stagedB_eq_with]
  exact ⟨key f k, key F K⟩

/-- C13, witness: the cell `(10, 10)` of `spotSim`, far from the spot, for the
rates `f = 1/2`, `k = 1/4`. -/
theorem uniform_state_is_steady_witness :
    interior 10 10 ∧
    ((UpdateReactionDiffusionWith (1 / 2) (1 / 4) spotSim).gridA 10 10 = 1 ∧
      (UpdateReactionDiffusionWith (1 / 2) (1 / 4) spotSim).gridB 10 10 = 0) ∧
    ((UpdateReactionDiffusion spotSim).gridA 10 10 = 1 ∧
      (UpdateReactionDiffusion spotSim).gridB 10 10 = 0) :=
  ⟨by decide, uniform_state_is_steady (1 / 2) (1 / 4) spotSim 10 10 (by decide)
    ⟨rfl, rfl, rfl, rfl, rfl⟩ (by simp [spotSim])⟩

end ReactionDiffusion
